import Mathlib

/-!
# Verification of the resume-tuner core loops

Shallow embedding of the claim-relevant code of the repository
(`src/app/supabase-admin-client.ts`, which concatenates the bullet-point
optimizer module and the `resume-save` / `pdf-parser` API route handlers),
together with proofs settling the frozen claims C1..C10.

Modelling conventions:

* JavaScript strings are Lean `String`s; character-level work is done on
  `List Char` (`String.data`).  JS regex whitespace `\s`, `trim()`
  whitespace, `\d`, and ASCII `toLowerCase` are modelled on the ASCII
  character classes actually exercised by the code (space, tab, CR, LF,
  FF, VT for whitespace; `[0-9]` for digits); exotic Unicode whitespace
  is out of scope.
* The two LLM capabilities are oracles indexed by call number:
  `gen : Nat → String` is the response to the n-th `llm.invoke` call and
  `ev : Nat → EvalResult` the response to the n-th `evaluator.invoke`
  call.  Call counters are threaded explicitly.  Prompt text is elided:
  it flows only into the oracle argument, which is indexed by call
  count, so it cannot influence any claim.
* Loops that the source bounds by a counter (`MAX_ITERATIONS = 5`,
  `MAX_RETRIES = 60`) are written with structural fuel equal to the
  source bound; the loop guard is re-checked at every step exactly as in
  the source, and since the guard counter advances by one per body
  execution starting from 0, the guard fails no later than the fuel runs
  out, so the fuel never truncates the loop (see `optimizeLoop_fuel_irrel`
  and `pollLoop_fuel_irrel`).
* Network / filesystem / database activity is recorded in an explicit
  effect trace returned next to the handler response.
-/

namespace ResumeTuner

/-! ## JS string primitives -/

/-- JS whitespace (`\s` and the `trim()` class) restricted to the ASCII
whitespace characters: space, tab, LF, VT, FF, CR. -/
def isWS (c : Char) : Bool :=
  c = ' ' || c = '\t' || c = '\n' || c = '\x0b' || c = '\x0c' || c = '\r'

/-- JS `\d`, i.e. the character class `[0-9]`. -/
def isDigitCh (c : Char) : Bool :=
  c = '0' || c = '1' || c = '2' || c = '3' || c = '4' ||
  c = '5' || c = '6' || c = '7' || c = '8' || c = '9'

/-- ASCII `String.prototype.toLowerCase` on a single character. -/
def charLower (c : Char) : Char :=
  if 'A' ≤ c ∧ c ≤ 'Z' then Char.ofNat (c.toNat + 32) else c

/-- Drop trailing JS whitespace (the right half of `trim()`). -/
def trimRight (l : List Char) : List Char :=
  (List.dropWhile isWS l.reverse).reverse

/-- JS `String.prototype.trim` on a character list. -/
def jsTrim (l : List Char) : List Char :=
  trimRight (List.dropWhile isWS l)

/-- JS `String.prototype.trim` on a `String`. -/
def jsTrimStr (s : String) : String :=
  String.mk (jsTrim s.data)

/-- JS `String.prototype.toLowerCase` (ASCII). -/
def lowerStr (l : List Char) : List Char := l.map charLower

/-- JS `text.split('\n')` : split on newline, keeping empty segments. -/
def splitNl : List Char → List (List Char)
  | [] => [[]]
  | c :: t =>
    if c = '\n' then [] :: splitNl t
    else
      match splitNl t with
      | [] => [[c]]
      | h :: r => (c :: h) :: r

/-- JS `line.toLowerCase().startsWith(pat)` for an ASCII pattern. -/
def startsWithCI (pat : List Char) (l : List Char) : Bool :=
  List.isPrefixOf pat (lowerStr l)

/-! ## The regexes of `extractBulletPoints`

The source scans the text with two global regexes:

* bullet pattern   `[-•*]\s*(.*?)(?=\n[-•*]|\n\n|$)` with flags `gs`
* numbered pattern `\d+\.\s*(.*?)(?=\n\d+\.|\n\n|$)` with flags `gs`

Both have the shape: a marker, greedy `\s*`, then a lazy dot-all group
that stops at the earliest position where the lookahead holds.  Because
the lazy group can always reach `$`, no backtracking into `\s*` ever
occurs, so each match is computed deterministically: consume the marker,
greedily consume whitespace, then take characters until the lookahead
holds.  `matchAll` resumes scanning at the end of each (nonempty) match.
-/

/-- The character class `[-•*]` of the bullet pattern. -/
def isMarker (c : Char) : Bool := c = '-' || c = '•' || c = '*'

/-- The lookahead `(?=\n[-•*]|\n\n|$)` of the bullet pattern, tested at
the position whose suffix is the argument (`$` is end of input; the `m`
flag is absent). -/
def bulletLA : List Char → Bool
  | [] => true
  | c1 :: rest =>
    c1 = '\n' &&
      (match rest with
       | c2 :: _ => isMarker c2 || c2 = '\n'
       | [] => false)

/-- The lazy group `(.*?)` of the bullet pattern: the shortest prefix
whose end position satisfies `bulletLA`, paired with the rest. -/
def lazyGroupB : List Char → List Char × List Char
  | [] => ([], [])
  | c :: t =>
    if bulletLA (c :: t) then ([], c :: t)
    else
      let r := lazyGroupB t
      (c :: r.1, r.2)

/-- The lookahead `(?=\n\d+\.|\n\n|$)` of the numbered pattern. -/
def numLA : List Char → Bool
  | [] => true
  | c1 :: rest =>
    c1 = '\n' &&
      ((match rest with
        | c2 :: _ => c2 = '\n'
        | [] => false) ||
       (!(rest.takeWhile isDigitCh).isEmpty &&
        (rest.dropWhile isDigitCh).head? = some '.'))

/-- The lazy group `(.*?)` of the numbered pattern. -/
def lazyGroupN : List Char → List Char × List Char
  | [] => ([], [])
  | c :: t =>
    if numLA (c :: t) then ([], c :: t)
    else
      let r := lazyGroupN t
      (c :: r.1, r.2)

/-- `matchAll` scan of the bullet pattern, returning the raw group
captures in order.  Fuel-driven; each step consumes at least one
character, so fuel `l.length` is always enough (`bulletScanF_fuel`). -/
def bulletScanF : Nat → List Char → List (List Char)
  | 0, _ => []
  | _, [] => []
  | fuel + 1, c :: t =>
    if isMarker c then
      let t1 := List.dropWhile isWS t
      let gr := lazyGroupB t1
      gr.1 :: bulletScanF fuel gr.2
    else bulletScanF fuel t

/-- `text.matchAll(bulletPattern)` group captures. -/
def bulletScan (l : List Char) : List (List Char) := bulletScanF l.length l

/-- `matchAll` scan of the numbered pattern.  A match attempt at a digit
succeeds when the maximal digit run from there is followed by `.`
(shorter runs would still face a digit, so JS backtracking agrees);
otherwise the scan advances one character. -/
def numberedScanF : Nat → List Char → List (List Char)
  | 0, _ => []
  | _, [] => []
  | fuel + 1, c :: t =>
    if isDigitCh c then
      let rest := List.dropWhile isDigitCh (c :: t)
      if rest.head? = some '.' then
        let u1 := List.dropWhile isWS rest.tail
        let gr := lazyGroupN u1
        gr.1 :: numberedScanF fuel gr.2
      else numberedScanF fuel t
    else numberedScanF fuel t

/-- `text.matchAll(numberedPattern)` group captures. -/
def numberedScan (l : List Char) : List (List Char) := numberedScanF l.length l

/-- The last-resort branch of `extractBulletPoints`:
`text.split('\n').map(trim).filter(line && !line.toLowerCase().startsWith(...))`. -/
def fallbackLines (text : List Char) : List (List Char) :=
  ((splitNl text).map jsTrim).filter fun line =>
    !line.isEmpty &&
    !startsWithCI "experience".data line &&
    !startsWithCI "job".data line &&
    !startsWithCI "position".data line

/-- `extractBulletPoints` from `supabase-admin-client.ts` (lines 48-80),
on character lists.  Stage 1: bullet-pattern captures (trimmed); stage 2
replaces them with numbered-pattern captures when stage 1 did not yield
exactly 4; stage 3 replaces with trimmed/filtered lines when stage 2 did
not yield exactly 4; then blank entries are filtered out and the result
is truncated or padded with empty strings to length exactly 4. -/
def extractBulletPointsL (text : List Char) : List (List Char) :=
  let bullets0 := (bulletScan text).map jsTrim
  let bullets1 := if bullets0.length ≠ 4 then (numberedScan text).map jsTrim else bullets0
  let bullets2 := if bullets1.length ≠ 4 then fallbackLines text else bullets1
  let bullets := bullets2.filter fun b => !(jsTrim b).isEmpty
  if bullets.length > 4 then bullets.take 4
  else bullets ++ List.replicate (4 - bullets.length) []

/-- `extractBulletPoints` on `String`s, as used by the optimizer. -/
def extractBulletPoints (text : String) : List String :=
  (extractBulletPointsL text.data).map String.mk

/-! ## The bullet-point optimizer

`BulletPointState`, `generateExperience`, `evaluateBulletPoints` and
`optimizeResumeBullets` from `supabase-admin-client.ts` (lines 26-282).
The text-generation capability (`llm.invoke`) is the oracle
`gen : Nat → String` and the structured-evaluation capability
(`evaluator.invoke`) is the oracle `ev : Nat → EvalResult`; each
function additionally threads the next call index for its oracle. -/

/-- The Zod state schema `BulletPointStateSchema`. -/
structure BulletPointState where
  job : String
  experience : String
  bullet_points : List String
  grades : List String
  feedback : List String
  iteration_count : Nat
deriving DecidableEq, Repr

/-- The `grade` enum of `BulletPointEvaluationSchema` (`z.enum ["pass", "fail"]`). -/
inductive ZGrade where
  | pass
  | fail
deriving DecidableEq, Repr

/-- The string the enum value denotes. -/
def ZGrade.toStr : ZGrade → String
  | .pass => "pass"
  | .fail => "fail"

/-- The shape of `BulletPointEvaluationSchema`: structured evaluator output. -/
structure EvalResult where
  grade : ZGrade
  feedback : String
deriving DecidableEq, Repr

/-- The per-slot fill-in loop of `generateExperience` (lines 133-141): for
each still-empty bullet slot, issue one single-bullet `llm.invoke` call and
store its trimmed response.  Returns the updated list and the next
generation-call index. -/
def fillEmpty (gen : Nat → String) : Nat → List String → List String × Nat
  | gc, [] => ([], gc)
  | gc, bp :: rest =>
    if bp = "" then
      let filled := jsTrimStr (gen gc)
      let r := fillEmpty gen (gc + 1) rest
      (filled :: r.1, r.2)
    else
      let r := fillEmpty gen gc rest
      (bp :: r.1, r.2)

/-- `generateExperience` (lines 83-153).  Increments the iteration count,
invokes the generation oracle once for the main prompt (prompt text elided:
it flows only into the oracle), extracts exactly 4 bullets, runs the
fill-in loop when the iteration cap is reached and a bullet is still empty,
and resets `grades`/`feedback` to four empty strings. -/
def generateExperience (gen : Nat → String) (gc : Nat) (state : BulletPointState) :
    BulletPointState × Nat :=
  let iterations := state.iteration_count + 1
  let experience := jsTrimStr (gen gc)
  let bullet_points := extractBulletPoints experience
  let fr :=
    if iterations ≥ 5 && bullet_points.any (fun bp => bp == "") then
      fillEmpty gen (gc + 1) bullet_points
    else (bullet_points, gc + 1)
  ({ state with
      experience := experience
      bullet_points := fr.1
      grades := ["", "", "", ""]
      feedback := ["", "", "", ""]
      iteration_count := iterations },
   fr.2)

/-- The per-bullet loop of `evaluateBulletPoints` (lines 161-234): an empty
bullet is graded `fail` with a fixed message without consulting the
evaluator; otherwise the evaluator oracle is invoked, and when
`iteration_count >= 5` the recorded grade is forced to `pass`, prefixing
the evaluator feedback when its verdict was `fail`.  Returns the grades,
the feedback, and the next evaluation-call index. -/
def evalLoop (ev : Nat → EvalResult) (itc : Nat) :
    Nat → List String → List String × List String × Nat
  | ec, [] => ([], [], ec)
  | ec, bp :: rest =>
    if bp = "" then
      let r := evalLoop ev itc ec rest
      ("fail" :: r.1,
       "Missing bullet point. Please generate a complete bullet point." :: r.2.1,
       r.2.2)
    else
      let result := ev ec
      let gf : String × String :=
        if itc ≥ 5 then
          ("pass",
           if result.grade = ZGrade.fail then
             "Forced pass after 5 iterations. Original feedback: " ++ result.feedback
           else result.feedback)
        else (result.grade.toStr, result.feedback)
      let r := evalLoop ev itc (ec + 1) rest
      (gf.1 :: r.1, gf.2 :: r.2.1, r.2.2)

/-- `evaluateBulletPoints` (lines 156-241). -/
def evaluateBulletPoints (ev : Nat → EvalResult) (ec : Nat) (state : BulletPointState) :
    BulletPointState × Nat :=
  let r := evalLoop ev state.iteration_count ec state.bullet_points
  ({ state with grades := r.1, feedback := r.2.1 }, r.2.2)

/-- `MAX_ITERATIONS` (line 258). -/
def MAX_ITERATIONS : Nat := 5

/-- The initial state built by `optimizeResumeBullets` (lines 248-255). -/
def initialState (job : String) : BulletPointState :=
  { job := job
    experience := ""
    bullet_points := ["", "", "", ""]
    grades := ["", "", "", ""]
    feedback := ["", "", "", ""]
    iteration_count := 0 }

/-- The `while (!allPassed && state.iteration_count < MAX_ITERATIONS)` loop
of `optimizeResumeBullets` (lines 260-279).  Fuel-driven with fuel
`MAX_ITERATIONS`; since `iteration_count` starts at 0 and each body
execution increments it exactly once, the guard fails no later than the
fuel runs out (`optimizeLoop_fuel_irrel`). -/
def optimizeLoop (gen : Nat → String) (ev : Nat → EvalResult) :
    Nat → Nat → Nat → Bool → BulletPointState → BulletPointState
  | 0, _, _, _, state => state
  | fuel + 1, gc, ec, allPassed, state =>
    if !allPassed && state.iteration_count < MAX_ITERATIONS then
      let g := generateExperience gen gc state
      let e := evaluateBulletPoints ev ec g.1
      optimizeLoop gen ev fuel g.2 e.2 (e.1.grades.all fun grade => grade == "pass") e.1
    else state

/-- `optimizeResumeBullets` (lines 244-282). -/
def optimizeResumeBullets (gen : Nat → String) (ev : Nat → EvalResult)
    (job : String) : BulletPointState :=
  optimizeLoop gen ev MAX_ITERATIONS 0 0 false (initialState job)

/-! ## The pdf-parser POST handler

The `POST` handler of the pdf-parser route (lines 706-951).  External
inputs (query parameter, environment variables, form data, and the three
provider endpoints) form a `PdfEnv`; provider status responses are an
oracle indexed by the 1-based poll number (`retryCount`).  Observable
side effects are recorded in order in a `List PdfEffect`.  Errors thrown
inside the `try` block become the 500 response of the `catch` block; the
`finally` block removes the staged temporary file whenever
`saveFileToDisk` created one (`fs.unlinkSync` is modelled as succeeding;
filesystem faults are out of scope). -/

/-- Observable side effects of the pdf-parser handler, in order:
the temporary-file write of `saveFileToDisk`, the upload request, the
n-th status poll, the result fetch, and the `finally`-block unlink. -/
inductive PdfEffect where
  | tmpWrite
  | netUpload
  | netStatus (n : Nat)
  | netResult
  | tmpDelete
deriving DecidableEq, Repr

/-- A `NextResponse.json` value: HTTP status plus the payload (the error
message, or the provider result on success). -/
structure PdfResponse where
  status : Nat
  body : String
deriving DecidableEq, Repr

/-- `API_CONFIG` (lines 713-721). -/
structure ApiConfig where
  MAX_RETRIES : Nat
  POLLING_INTERVAL : Nat
deriving DecidableEq, Repr

/-- `API_CONFIG` values: 60 retries, 3000 ms interval. -/
def API_CONFIG : ApiConfig := { MAX_RETRIES := 60, POLLING_INTERVAL := 3000 }

/-- JS `a || d` for a possibly-absent string: both an absent value
(`null`) and a present empty string are falsy and fall back to the
default. -/
def jsOrDefault (o : Option String) (d : String) : String :=
  match o with
  | none => d
  | some s => if s = "" then d else s

/-- External inputs of one pdf-parser request.  Provider responses are
given up front: `statusOk n` / `statusStatus n` / `statusError n`
describe the n-th status poll (1-based, matching `retryCount`). -/
structure PdfEnv where
  /-- `url.searchParams.get('resultType')` (`none` = absent; the
  source's `|| 'markdown'` defaults both `none` and a present empty
  string, see `jsOrDefault`). -/
  resultTypeParam : Option String
  /-- `LLAMA_CLOUD_API_KEY || LLAMA_API_KEY`. -/
  apiKey : Option String
  /-- `formData.has('file')`. -/
  hasFile : Bool
  /-- `response.ok` of the upload request. -/
  uploadOk : Bool
  /-- `response.status` of the upload request. -/
  uploadStatus : Nat
  /-- `response.statusText` of the upload request. -/
  uploadStatusText : String
  /-- `uploadResult.job_id`. -/
  upload_job_id : Option String
  /-- `uploadResult.id`. -/
  upload_id : Option String
  /-- `statusResponse.ok` of the n-th poll. -/
  statusOk : Nat → Bool
  /-- `statusResult.status` of the n-th poll (absent field = `none`). -/
  statusStatus : Nat → Option String
  /-- `statusResult.error` of the n-th poll (`some` = present and truthy). -/
  statusError : Nat → Option String
  /-- `resultResponse.ok` of the result fetch. -/
  resultOk : Bool
  /-- whether `resultResponse.json()` parses. -/
  resultJsonOk : Bool
  /-- the parsed provider result (opaque). -/
  resultVal : String

/-- The polling `while (!isComplete && retryCount < maxRetries)` loop
(lines 854-926).  Returns `Except.error` for a thrown error,
`.ok (some r)` when the job completed with result `r`, and `.ok none`
when the loop exited with `isComplete` still false, together with the
effect trace.  Fuel-driven with fuel `MAX_RETRIES`; the guard
`retryCount < MAX_RETRIES` is re-checked each step, and the handler
starts the loop with `retryCount = 0` and fuel `MAX_RETRIES`, so the
fuel never truncates the loop (`pollLoop_fuel_irrel`). -/
def pollLoop (env : PdfEnv) : Nat → Nat → Except String (Option String) × List PdfEffect
  | 0, _ => (.ok none, [])
  | fuel + 1, retryCount =>
    if retryCount < API_CONFIG.MAX_RETRIES then
      let rc := retryCount + 1
      if env.statusOk rc = false then
        (.error "Failed to check job status", [.netStatus rc])
      else
        let statusValue := (env.statusStatus rc).map fun s => String.mk (lowerStr s.data)
        if statusValue = some "completed" then
          if env.resultOk = false then
            (.error "Failed to get parsing results", [.netStatus rc, .netResult])
          else if env.resultJsonOk = false then
            (.error "Failed to parse result JSON", [.netStatus rc, .netResult])
          else (.ok (some env.resultVal), [.netStatus rc, .netResult])
        else if statusValue = some "failed" || (env.statusError rc).isSome then
          (.error ("Parsing job failed: " ++ ((env.statusError rc).getD "Unknown error")),
           [.netStatus rc])
        else
          let r := pollLoop env fuel rc
          (r.1, .netStatus rc :: r.2)
    else (.ok none, [])

/-- The portion of the `try` block after `saveFileToDisk` succeeded
(lines 795-933): upload, job-id extraction (`job_id || id`), polling,
timeout check, and result.  `Except.error` is a thrown error. -/
def afterSave (env : PdfEnv) : Except String String × List PdfEffect :=
  if env.uploadOk = false then
    (.error ("Failed to upload file to LlamaParse: " ++ toString env.uploadStatus ++
             " " ++ env.uploadStatusText),
     [.netUpload])
  else
    match env.upload_job_id.orElse fun _ => env.upload_id with
    | none => (.error "No job ID returned from LlamaParse", [.netUpload])
    | some _ =>
      let p := pollLoop env API_CONFIG.MAX_RETRIES 0
      match p.1 with
      | .error e => (.error e, .netUpload :: p.2)
      | .ok none =>
        (.error ("PDF parsing timed out after " ++
                 toString (API_CONFIG.POLLING_INTERVAL * API_CONFIG.MAX_RETRIES / 1000) ++
                 " seconds"),
         .netUpload :: p.2)
      | .ok (some r) => (.ok r, .netUpload :: p.2)

/-- The pdf-parser `POST` handler (lines 750-951): result-type
validation, API-key check, file presence check, `saveFileToDisk`
(`tmpWrite`), the post-upload pipeline, the `catch` block turning thrown
errors into 500 responses, and the `finally` block removing the staged
file whenever it was created. -/
def POST_pdfParse (env : PdfEnv) : PdfResponse × List PdfEffect :=
  let resultType := jsOrDefault env.resultTypeParam "markdown"
  if !(resultType = "markdown" || resultType = "text" || resultType = "json") then
    ({ status := 400, body := "Invalid result type. Supported types are: markdown, text, json" },
     [])
  else
    match env.apiKey with
    | none =>
      ({ status := 500,
         body := "LlamaParse API key not configured. Please set LLAMA_CLOUD_API_KEY in your environment variables." },
       [])
    | some _ =>
      if env.hasFile = false then
        ({ status := 400,
           body := "No file provided. Please upload a file with the key \x22file\x22" },
         [])
      else
        let r := afterSave env
        match r.1 with
        | .ok res => ({ status := 200, body := res }, .tmpWrite :: r.2 ++ [.tmpDelete])
        | .error e => ({ status := 500, body := e }, .tmpWrite :: r.2 ++ [.tmpDelete])

/-! ## The resume-save POST handler

The `POST` handler of the resume-save route (lines 312-489).  Database
calls are oracles: `none` error means the call succeeded.  Each
attempted database operation is recorded in a `List DbEffect`;
`deleteResumes` is never emitted by the handler and exists so that the
absence of any rollback of the inserted resume row is expressible. -/

/-- Attempted database operations of the resume-save handler.
`deleteResumes` is included only to state that no rollback ever occurs:
the handler has no code path emitting it. -/
inductive DbEffect where
  | selectResumes
  | selectVersions
  | insertVersions
  | updateResumes
  | insertResumes
  | deleteResumes
deriving DecidableEq, Repr

/-- The JSON payload of a resume-save response; absent fields are `none`. -/
structure SaveBody where
  message : Option String := none
  error : Option String := none
  details : Option String := none
  warning : Option String := none
  resumeId : Option String := none
  versionNo : Option Nat := none
deriving DecidableEq, Repr

/-- A `NextResponse.json` value of the resume-save handler. -/
structure SaveResponse where
  status : Nat
  body : SaveBody
deriving DecidableEq, Repr

/-- External inputs of one resume-save request. -/
structure SaveEnv where
  /-- whether `request.json()` parses. -/
  jsonOk : Bool
  /-- truthiness of `body.payload`. -/
  payloadPresent : Bool
  /-- truthiness of `body.userId`. -/
  userIdPresent : Bool
  /-- `body.resumeId` (`some` = update path, `none` = create path). -/
  resumeId : Option String
  /-- the `uuidv4()` drawn for the new resume id on the create path. -/
  newResumeId : String
  /-- error of the `resumes` select on the update path. -/
  getResumeError : Option String
  /-- whether the selected resume row is present on the update path. -/
  currentResumePresent : Bool
  /-- error of the `resume_versions` select on the update path. -/
  versionSelectError : Option String
  /-- highest existing `version_no` on the update path (`none` = no rows). -/
  latestVersionNo : Option Nat
  /-- error of the `resume_versions` insert on the update path. -/
  insertVersionError : Option String
  /-- error of the `resumes` update on the update path. -/
  updateError : Option String
  /-- error of the `resumes` insert on the create path. -/
  createError : Option String
  /-- error of the `resume_versions` insert on the create path. -/
  createVersionError : Option String

/-- The resume-save `POST` handler (lines 312-489): validation, then the
update path (`resumeId` supplied) or the create path (insert a new
resume, then insert the version-1 record; a failure of the latter is
reported as a success response with a warning, without rolling back the
inserted resume row). -/
def POST_resumeSave (env : SaveEnv) : SaveResponse × List DbEffect :=
  if env.jsonOk = false then
    ({ status := 500, body := { error := some "Failed to save resume" } }, [])
  else if env.payloadPresent = false then
    ({ status := 400, body := { error := some "Resume payload is required" } }, [])
  else if env.userIdPresent = false then
    ({ status := 400, body := { error := some "User ID is required" } }, [])
  else
    match env.resumeId with
    | some rid =>
      match env.getResumeError with
      | some e =>
        ({ status := 500, body := { error := some "Error fetching existing resume", details := some e } },
         [.selectResumes])
      | none =>
        if env.currentResumePresent = false then
          ({ status := 404,
             body := { error := some "Resume not found or you don\x27t have permission to update it" } },
           [.selectResumes])
        else
          match env.versionSelectError with
          | some e =>
            ({ status := 500, body := { error := some "Error fetching version data", details := some e } },
             [.selectResumes, .selectVersions])
          | none =>
            let nextVersionNo := match env.latestVersionNo with
              | some v => v + 1
              | none => 1
            match env.insertVersionError with
            | some e =>
              ({ status := 500, body := { error := some "Error creating version record", details := some e } },
               [.selectResumes, .selectVersions, .insertVersions])
            | none =>
              match env.updateError with
              | some e =>
                ({ status := 500, body := { error := some "Error updating resume", details := some e } },
                 [.selectResumes, .selectVersions, .insertVersions, .updateResumes])
              | none =>
                ({ status := 200,
                   body := { message := some "Resume updated successfully",
                             resumeId := some rid, versionNo := some nextVersionNo } },
                 [.selectResumes, .selectVersions, .insertVersions, .updateResumes])
    | none =>
      match env.createError with
      | some e =>
        ({ status := 500, body := { error := some "Error creating resume", details := some e } },
         [.insertResumes])
      | none =>
        match env.createVersionError with
        | some w =>
          ({ status := 200,
             body := { message := some "Resume created successfully, but version tracking failed",
                       resumeId := some env.newResumeId, warning := some w } },
           [.insertResumes, .insertVersions])
        | none =>
          ({ status := 200,
             body := { message := some "Resume created successfully",
                       resumeId := some env.newResumeId, versionNo := some 1 } },
           [.insertResumes, .insertVersions])

/-! ## Text shapes quantified over by claim C4 -/

/-- A dash-prefixed bullet line with content `c`. -/
def dashLine (c : List Char) : List Char := '-' :: ' ' :: c

/-- A numbered-list line with digit label `d` and content `c`. -/
def numLine (d c : List Char) : List Char := d ++ '.' :: ' ' :: c

/-- Join lines with single newlines (no trailing newline). -/
def joinLines : List (List Char) → List Char
  | [] => []
  | [l] => l
  | l :: ls => l ++ '\n' :: joinLines ls

/-! ## Concrete fixtures used by witnesses and counterexamples -/

/-- The length-4 alignment invariant of `OptimizationState`. -/
def lengths4 (s : BulletPointState) : Prop :=
  s.bullet_points.length = 4 ∧ s.grades.length = 4 ∧ s.feedback.length = 4

instance (s : BulletPointState) : Decidable (lengths4 s) := by
  unfold lengths4; infer_instance

/-- Recognizer for status-poll effects (used to count polls). -/
def isNetStatus : PdfEffect → Bool
  | .netStatus _ => true
  | _ => false

/-- A generation oracle producing a well-formed four-bullet response. -/
def genW : Nat → String := fun _ => "- alpha\n- beta\n- gamma\n- delta"

/-- A generation oracle producing only empty responses. -/
def genBlankW : Nat → String := fun _ => ""

/-- An evaluation oracle that always passes. -/
def evPassW : Nat → EvalResult := fun _ => { grade := .pass, feedback := "ok" }

/-- An evaluation oracle that always fails. -/
def evFailW : Nat → EvalResult := fun _ => { grade := .fail, feedback := "too vague" }

/-- A state at the iteration cap with one empty bullet slot. -/
def stateAtCapW : BulletPointState :=
  { job := "Backend Engineer"
    experience := "e"
    bullet_points := ["", "x", "y", "z"]
    grades := ["", "", "", ""]
    feedback := ["", "", "", ""]
    iteration_count := 5 }

/-- A pdf-parser environment whose provider always reports `PROCESSING`. -/
def pdfEnvBaseW : PdfEnv :=
  { resultTypeParam := none
    apiKey := some "k"
    hasFile := true
    uploadOk := true
    uploadStatus := 200
    uploadStatusText := "OK"
    upload_job_id := some "j1"
    upload_id := none
    statusOk := fun _ => true
    statusStatus := fun _ => some "PROCESSING"
    statusError := fun _ => none
    resultOk := true
    resultJsonOk := true
    resultVal := "parsed" }

/-- A pdf-parser environment with an invalid `resultType` query parameter. -/
def pdfEnvXmlW : PdfEnv := { pdfEnvBaseW with resultTypeParam := some "xml" }

/-- A pdf-parser environment with a present but empty `resultType`
query parameter (`?resultType=`). -/
def pdfEnvEmptyRTW : PdfEnv := { pdfEnvBaseW with resultTypeParam := some "" }

/-- A pdf-parser environment whose provider reports `FAILED` on the first poll. -/
def pdfEnvFailW : PdfEnv :=
  { pdfEnvBaseW with
      statusStatus := fun _ => some "FAILED"
      statusError := fun _ => some "bad pdf" }

/-- A resume-save environment on the create path whose version insert fails. -/
def saveEnvW : SaveEnv :=
  { jsonOk := true
    payloadPresent := true
    userIdPresent := true
    resumeId := none
    newResumeId := "r-123"
    getResumeError := none
    currentResumePresent := true
    versionSelectError := none
    latestVersionNo := none
    insertVersionError := none
    updateError := none
    createError := none
    createVersionError := some "rls violation" }

/-! # Theorems

First the helper lemmas about the embedded definitions, then, at the end
of each thematic block, the claim theorems with their witnesses. -/

/-! ## Lemmas about the JS string primitives -/

/-- A digit is not whitespace, not a bullet marker, not a newline, not a
dot, lowercases to itself, and differs from the letters the fallback
filter looks for. -/
theorem digit_facts (c : Char) (h : isDigitCh c = true) :
    isWS c = false ∧ isMarker c = false ∧ c ≠ '\n' ∧ c ≠ '.' ∧
    charLower c = c ∧ c ≠ 'e' ∧ c ≠ 'j' ∧ c ≠ 'p' := by
  simp only [isDigitCh, Bool.or_eq_true, decide_eq_true_eq, or_assoc] at h
  rcases h with h | h | h | h | h | h | h | h | h | h <;> subst h <;> decide

/-- `dropWhile` over an append whose left part has a failing element. -/
theorem dropWhile_append_left (p : Char → Bool) (l1 l2 : List Char)
    (h : ¬ ∀ x ∈ l1, p x = true) :
    List.dropWhile p (l1 ++ l2) = List.dropWhile p l1 ++ l2 := by
  rw [List.dropWhile_append, if_neg]
  simp only [List.isEmpty_eq_true, List.dropWhile_eq_nil_iff]
  exact h

/-- `dropWhile` over an append whose left part passes entirely. -/
theorem dropWhile_append_all (p : Char → Bool) (l1 l2 : List Char)
    (h : ∀ x ∈ l1, p x = true) :
    List.dropWhile p (l1 ++ l2) = List.dropWhile p l2 := by
  rw [List.dropWhile_append, if_pos]
  simp only [List.isEmpty_eq_true, List.dropWhile_eq_nil_iff]
  exact h

/-- The head of a `dropWhile` residue fails the predicate. -/
theorem dropWhile_head_false (p : Char → Bool) (l : List Char) (x : Char) (xs : List Char)
    (h : List.dropWhile p l = x :: xs) : p x = false := by
  induction l with
  | nil => simp at h
  | cons a t ih =>
    rw [List.dropWhile_cons] at h
    split at h
    · exact ih h
    · next hpa =>
      cases h
      simpa using hpa

/-- `dropWhile` is idempotent. -/
theorem dropWhile_idem (p : Char → Bool) (l : List Char) :
    List.dropWhile p (List.dropWhile p l) = List.dropWhile p l := by
  cases h : List.dropWhile p l with
  | nil => rfl
  | cons x xs =>
    rw [List.dropWhile_cons, if_neg (by simp [dropWhile_head_false p l x xs h])]

/-- A list whose JS trim is nonempty has a non-whitespace element. -/
theorem hasNonWS_of_jsTrim_ne (l : List Char) (h : jsTrim l ≠ []) :
    ¬ ∀ x ∈ l, isWS x = true := by
  intro hall
  apply h
  unfold jsTrim trimRight
  rw [List.dropWhile_eq_nil_iff.2 hall]
  rfl

/-- `trimRight` over an append whose right part has a non-whitespace
element stays inside that part. -/
theorem trimRight_append (l c : List Char) (h : ¬ ∀ x ∈ c, isWS x = true) :
    trimRight (l ++ c) = l ++ trimRight c := by
  unfold trimRight
  rw [List.reverse_append, dropWhile_append_left _ _ _ (by simpa using h),
    List.reverse_append, List.reverse_reverse]

/-- `trimRight` is idempotent. -/
theorem trimRight_idem (l : List Char) : trimRight (trimRight l) = trimRight l := by
  unfold trimRight
  rw [List.reverse_reverse, dropWhile_idem]

/-- `trimRight` keeps a non-whitespace element when there is one. -/
theorem hasNonWS_trimRight (c : List Char) (h : ¬ ∀ x ∈ c, isWS x = true) :
    ¬ ∀ x ∈ trimRight c, isWS x = true := by
  have hne : List.dropWhile isWS c.reverse ≠ [] := by
    simp only [ne_eq, List.dropWhile_eq_nil_iff]
    intro hall2
    exact h fun y hy => hall2 y (List.mem_reverse.2 hy)
  cases hd : List.dropWhile isWS c.reverse with
  | nil => exact absurd hd hne
  | cons x xs =>
    have hx : isWS x = false := dropWhile_head_false isWS c.reverse x xs hd
    intro hall
    have hmem : x ∈ trimRight c := by
      unfold trimRight
      rw [hd, List.mem_reverse]
      simp
    rw [hall x hmem] at hx
    exact Bool.noConfusion hx

/-- The JS trim of a list starts with a non-whitespace character, so a
further leading-whitespace strip is a no-op. -/
theorem dropWhile_isWS_jsTrim (l : List Char) :
    List.dropWhile isWS (jsTrim l) = jsTrim l := by
  unfold jsTrim
  cases hy : List.dropWhile isWS l with
  | nil => rfl
  | cons x xs =>
    have hx : isWS x = false := dropWhile_head_false isWS l x xs hy
    have hpre : trimRight (x :: xs) <+: x :: xs := by
      have h1 := List.reverse_prefix.2 (List.dropWhile_suffix (l := (x :: xs).reverse) isWS)
      rwa [List.reverse_reverse] at h1
    cases htr : trimRight (x :: xs) with
    | nil => rfl
    | cons a zs =>
      rw [htr] at hpre
      obtain ⟨t, ht⟩ := hpre
      simp only [List.cons_append, List.cons.injEq] at ht
      rw [List.dropWhile_cons, if_neg (by simp [ht.1, hx])]

/-- `jsTrim` is idempotent. -/
theorem jsTrim_idem (l : List Char) : jsTrim (jsTrim l) = jsTrim l := by
  conv_lhs => rw [jsTrim, dropWhile_isWS_jsTrim]
  rw [show jsTrim l = trimRight (List.dropWhile isWS l) from rfl, trimRight_idem]

/-- Trimming after a leading-whitespace strip is plain trimming. -/
theorem jsTrim_dropWhile (l : List Char) :
    jsTrim (List.dropWhile isWS l) = jsTrim l := by
  unfold jsTrim
  rw [dropWhile_idem]

/-! ## Lemmas about the regex scans -/

/-- The bullet lookahead fails on any suffix not starting with a newline. -/
theorem bulletLA_cons_ne (x : Char) (l : List Char) (h : x ≠ '\n') :
    bulletLA (x :: l) = false := by
  simp [bulletLA, h]

/-- The numbered lookahead fails on any suffix not starting with a newline. -/
theorem numLA_cons_ne (x : Char) (l : List Char) (h : x ≠ '\n') :
    numLA (x :: l) = false := by
  simp [numLA, h]

/-- The lazy bullet group ends exactly at the first lookahead position:
a newline-free prefix followed by a lookahead-satisfying tail. -/
theorem lazyGroupB_append (g tail : List Char) (hg : ∀ x ∈ g, x ≠ '\n')
    (hla : bulletLA tail = true) : lazyGroupB (g ++ tail) = (g, tail) := by
  induction g with
  | nil =>
    cases tail with
    | nil => rfl
    | cons c t => simp only [List.nil_append, lazyGroupB, if_pos hla]
  | cons x g' ih =>
    have hx : bulletLA (x :: (g' ++ tail)) = false :=
      bulletLA_cons_ne x _ (hg x (List.mem_cons_self x g'))
    simp only [List.cons_append, lazyGroupB, List.append_eq]
    rw [if_neg (by simp [hx]), ih fun y hy => hg y (List.mem_cons_of_mem x hy)]

/-- The lazy numbered group ends exactly at the first lookahead position. -/
theorem lazyGroupN_append (g tail : List Char) (hg : ∀ x ∈ g, x ≠ '\n')
    (hla : numLA tail = true) : lazyGroupN (g ++ tail) = (g, tail) := by
  induction g with
  | nil =>
    cases tail with
    | nil => rfl
    | cons c t => simp only [List.nil_append, lazyGroupN, if_pos hla]
  | cons x g' ih =>
    have hx : numLA (x :: (g' ++ tail)) = false :=
      numLA_cons_ne x _ (hg x (List.mem_cons_self x g'))
    simp only [List.cons_append, lazyGroupN, List.append_eq]
    rw [if_neg (by simp [hx]), ih fun y hy => hg y (List.mem_cons_of_mem x hy)]

/-- The rest returned by the lazy bullet group is no longer than its input. -/
theorem lazyGroupB_snd_length (s : List Char) : (lazyGroupB s).2.length ≤ s.length := by
  induction s with
  | nil => simp [lazyGroupB]
  | cons c t ih =>
    simp only [lazyGroupB]
    split
    · simp
    · simpa using Nat.le_succ_of_le ih

/-- The rest returned by the lazy numbered group is no longer than its input. -/
theorem lazyGroupN_snd_length (s : List Char) : (lazyGroupN s).2.length ≤ s.length := by
  induction s with
  | nil => simp [lazyGroupN]
  | cons c t ih =>
    simp only [lazyGroupN]
    split
    · simp
    · simpa using Nat.le_succ_of_le ih

/-- The bullet scan is fuel-irrelevant above the input length. -/
theorem bulletScanF_fuel (f1 : Nat) : ∀ f2 l, l.length ≤ f1 → l.length ≤ f2 →
    bulletScanF f1 l = bulletScanF f2 l := by
  induction f1 with
  | zero =>
    intro f2 l h1 _
    have hl : l = [] := List.length_eq_zero.1 (by omega)
    subst hl
    cases f2 <;> rfl
  | succ f1 ih =>
    intro f2 l h1 h2
    cases l with
    | nil => cases f2 <;> rfl
    | cons c t =>
      cases f2 with
      | zero => simp at h2
      | succ f2 =>
        simp only [bulletScanF]
        split
        · have hd : (List.dropWhile isWS t).length ≤ t.length :=
            (List.dropWhile_sublist isWS).length_le
          have hr := lazyGroupB_snd_length (List.dropWhile isWS t)
          simp only [List.length_cons] at h1 h2
          rw [ih f2 _ (by omega) (by omega)]
        · simp only [List.length_cons] at h1 h2
          rw [ih f2 t (by omega) (by omega)]

/-- The numbered scan is fuel-irrelevant above the input length. -/
theorem numberedScanF_fuel (f1 : Nat) : ∀ f2 l, l.length ≤ f1 → l.length ≤ f2 →
    numberedScanF f1 l = numberedScanF f2 l := by
  induction f1 with
  | zero =>
    intro f2 l h1 _
    have hl : l = [] := List.length_eq_zero.1 (by omega)
    subst hl
    cases f2 <;> rfl
  | succ f1 ih =>
    intro f2 l h1 h2
    cases l with
    | nil => cases f2 <;> rfl
    | cons c t =>
      cases f2 with
      | zero => simp at h2
      | succ f2 =>
        have hd : (List.dropWhile isDigitCh (c :: t)).length ≤ t.length + 1 := by
          simpa using (List.dropWhile_sublist isDigitCh (l := c :: t)).length_le
        have htl : (List.dropWhile isDigitCh (c :: t)).tail.length
            ≤ (List.dropWhile isDigitCh (c :: t)).length - 1 := by
          simp [List.length_tail]
        have hw : (List.dropWhile isWS (List.dropWhile isDigitCh (c :: t)).tail).length
            ≤ (List.dropWhile isDigitCh (c :: t)).tail.length :=
          (List.dropWhile_sublist isWS).length_le
        have hr := lazyGroupN_snd_length
          (List.dropWhile isWS (List.dropWhile isDigitCh (c :: t)).tail)
        simp only [List.length_cons] at h1 h2
        simp only [numberedScanF]
        split
        · split
          · rw [ih f2 _ (by omega) (by omega)]
          · rw [ih f2 t (by omega) (by omega)]
        · rw [ih f2 t (by omega) (by omega)]

/-- The bullet scan skips a non-marker character. -/
theorem bulletScan_skip (c : Char) (l : List Char) (h : isMarker c = false) :
    bulletScan (c :: l) = bulletScan l := by
  show bulletScanF (c :: l).length (c :: l) = bulletScanF l.length l
  simp only [List.length_cons, bulletScanF, h, Bool.false_eq_true, if_neg]
  exact bulletScanF_fuel _ _ _ (by omega) le_rfl

/-- One bullet-pattern match: a marker, the greedy whitespace strip and
the lazy group up to a lookahead-satisfying tail; the scan resumes on
the tail. -/
theorem bulletScan_match (c : Char) (body tail : List Char)
    (hm : isMarker c = true)
    (hbody : ¬ ∀ x ∈ body, isWS x = true)
    (hnl : ∀ x ∈ body, x ≠ '\n')
    (hla : bulletLA tail = true) :
    bulletScan (c :: (body ++ tail)) = List.dropWhile isWS body :: bulletScan tail := by
  show bulletScanF (c :: (body ++ tail)).length (c :: (body ++ tail)) = _
  simp only [List.length_cons, bulletScanF]
  rw [if_pos hm]
  rw [dropWhile_append_left _ _ _ hbody,
    lazyGroupB_append _ _ (fun y hy => hnl y (List.dropWhile_subset _ hy)) hla]
  refine congrArg _ ?_
  show bulletScanF (body ++ tail).length tail = bulletScanF tail.length tail
  refine bulletScanF_fuel _ _ _ ?_ le_rfl
  simp only [List.length_append]
  omega

/-- The numbered scan skips a non-digit character. -/
theorem numberedScan_skip (c : Char) (l : List Char) (h : isDigitCh c = false) :
    numberedScan (c :: l) = numberedScan l := by
  show numberedScanF (c :: l).length (c :: l) = numberedScanF l.length l
  simp only [List.length_cons, numberedScanF, h, Bool.false_eq_true, if_neg]
  exact numberedScanF_fuel _ _ _ (by omega) le_rfl

/-- One numbered-pattern match: a nonempty digit run, the dot, the
greedy whitespace strip and the lazy group up to a lookahead-satisfying
tail; the scan resumes on the tail. -/
theorem numberedScan_match (d body tail : List Char)
    (hd : d ≠ []) (hdd : ∀ x ∈ d, isDigitCh x = true)
    (hbody : ¬ ∀ x ∈ body, isWS x = true)
    (hnl : ∀ x ∈ body, x ≠ '\n')
    (hla : numLA tail = true) :
    numberedScan (d ++ ('.' :: (body ++ tail)))
      = List.dropWhile isWS body :: numberedScan tail := by
  cases d with
  | nil => exact absurd rfl hd
  | cons c d' =>
    have hc : isDigitCh c = true := hdd c (List.mem_cons_self c d')
    have hdrop : List.dropWhile isDigitCh (c :: (d' ++ ('.' :: (body ++ tail))))
        = '.' :: (body ++ tail) := by
      rw [show c :: (d' ++ ('.' :: (body ++ tail))) = (c :: d') ++ ('.' :: (body ++ tail))
        from rfl]
      rw [dropWhile_append_all _ _ _ hdd, List.dropWhile_cons, if_neg (by decide)]
    show numberedScanF (List.length ((c :: d') ++ ('.' :: (body ++ tail))))
        ((c :: d') ++ ('.' :: (body ++ tail))) = _
    rw [List.cons_append]
    simp only [List.length_cons, numberedScanF, List.append_eq]
    rw [if_pos hc]
    rw [hdrop, show ('.' :: (body ++ tail)).head? = some '.' from rfl]
    rw [if_pos rfl, List.tail_cons]
    rw [dropWhile_append_left _ _ _ hbody,
      lazyGroupN_append _ _ (fun y hy => hnl y (List.dropWhile_subset _ hy)) hla]
    refine congrArg _ ?_
    show numberedScanF (d' ++ ('.' :: (body ++ tail))).length tail
        = numberedScanF tail.length tail
    refine numberedScanF_fuel _ _ _ ?_ le_rfl
    simp only [List.length_append, List.length_cons]
    omega

/-- A text with no marker character has no bullet-pattern match. -/
theorem bulletScanF_no_marker (f : Nat) : ∀ l, (∀ x ∈ l, isMarker x = false) →
    bulletScanF f l = [] := by
  induction f with
  | zero => intro l _; cases l <;> rfl
  | succ f ih =>
    intro l h
    cases l with
    | nil => rfl
    | cons c t =>
      simp only [bulletScanF]
      rw [if_neg (by simp [h c (List.mem_cons_self c t)])]
      exact ih t fun x hx => h x (List.mem_cons_of_mem c hx)

/-! ## Structural lemmas for the optimizer -/

/-- `extractBulletPoints` always yields exactly 4 items (the source pads
or truncates). -/
theorem pad4_length (bullets : List (List Char)) :
    (if bullets.length > 4 then bullets.take 4
     else bullets ++ List.replicate (4 - bullets.length) []).length = 4 := by
  split
  · next h => simp only [List.length_take]; omega
  · next h => simp only [List.length_append, List.length_replicate]; omega

theorem extractBulletPointsL_length (text : List Char) :
    (extractBulletPointsL text).length = 4 := by
  simp only [extractBulletPointsL]
  exact pad4_length _

/-- String version of `extractBulletPointsL_length`. -/
theorem extractBulletPoints_length (text : String) :
    (extractBulletPoints text).length = 4 := by
  simp [extractBulletPoints, extractBulletPointsL_length]

/-- The fill-in loop preserves the number of bullet slots. -/
theorem fillEmpty_length (gen : Nat → String) :
    ∀ gc l, ((fillEmpty gen gc l).1).length = l.length := by
  intro gc l
  induction l generalizing gc with
  | nil => simp [fillEmpty]
  | cons bp rest ih =>
    by_cases h : bp = "" <;> simp [fillEmpty, h, ih]

/-- If every generation response trims to a non-empty string, the fill-in
loop leaves no empty slot. -/
theorem fillEmpty_ne_empty (gen : Nat → String)
    (hgen : ∀ n, jsTrimStr (gen n) ≠ "") :
    ∀ gc l x, x ∈ (fillEmpty gen gc l).1 → x ≠ "" := by
  intro gc l
  induction l generalizing gc with
  | nil => intro x hx; simp [fillEmpty] at hx
  | cons bp rest ih =>
    intro x hx
    by_cases h : bp = ""
    · simp only [fillEmpty, h, if_pos rfl] at hx
      rcases List.mem_cons.1 hx with h1 | h1
      · rw [h1]; exact hgen _
      · exact ih _ _ h1
    · simp only [fillEmpty, if_neg h] at hx
      rcases List.mem_cons.1 hx with h1 | h1
      · subst h1; exact h
      · exact ih _ _ h1

/-- Field values of the state produced by `generateExperience`: the
iteration count is incremented, the job is preserved, grades and feedback
are reset to four empty strings, and there are exactly 4 bullets. -/
theorem generateExperience_fields (gen : Nat → String) (gc : Nat) (s : BulletPointState) :
    (generateExperience gen gc s).1.iteration_count = s.iteration_count + 1 ∧
    (generateExperience gen gc s).1.job = s.job ∧
    (generateExperience gen gc s).1.grades = ["", "", "", ""] ∧
    (generateExperience gen gc s).1.feedback = ["", "", "", ""] ∧
    (generateExperience gen gc s).1.bullet_points.length = 4 := by
  refine ⟨rfl, rfl, rfl, rfl, ?_⟩
  simp only [generateExperience]
  split
  · exact (fillEmpty_length gen _ _).trans (extractBulletPoints_length _)
  · exact extractBulletPoints_length _

/-- At the iteration cap, if every generation response trims non-empty,
the state produced by `generateExperience` has no empty bullet. -/
theorem generateExperience_ne_empty (gen : Nat → String) (gc : Nat) (s : BulletPointState)
    (hcap : 5 ≤ s.iteration_count + 1) (hgen : ∀ n, jsTrimStr (gen n) ≠ "") :
    ∀ x ∈ (generateExperience gen gc s).1.bullet_points, x ≠ "" := by
  simp only [generateExperience]
  split
  · next h => exact fun x hx => fillEmpty_ne_empty gen hgen _ _ x hx
  · next h =>
    intro x hx hxe
    apply h
    simp only [Bool.and_eq_true, decide_eq_true_eq, List.any_eq_true, beq_iff_eq]
    exact ⟨by omega, x, hx, hxe⟩

/-- The grades and feedback lists built by `evalLoop` have the same
length as the bullet list. -/
theorem evalLoop_length (ev : Nat → EvalResult) (itc : Nat) :
    ∀ ec l, ((evalLoop ev itc ec l).1).length = l.length ∧
      ((evalLoop ev itc ec l).2.1).length = l.length := by
  intro ec l
  induction l generalizing ec with
  | nil => simp [evalLoop]
  | cons bp rest ih =>
    by_cases h : bp = "" <;> simp [evalLoop, h, (ih ec).1, (ih ec).2, (ih (ec + 1)).1, (ih (ec + 1)).2]

/-- Field values of the state produced by `evaluateBulletPoints`. -/
theorem evaluateBulletPoints_fields (ev : Nat → EvalResult) (ec : Nat) (s : BulletPointState) :
    (evaluateBulletPoints ev ec s).1.iteration_count = s.iteration_count ∧
    (evaluateBulletPoints ev ec s).1.job = s.job ∧
    (evaluateBulletPoints ev ec s).1.bullet_points = s.bullet_points ∧
    (evaluateBulletPoints ev ec s).1.grades.length = s.bullet_points.length ∧
    (evaluateBulletPoints ev ec s).1.feedback.length = s.bullet_points.length := by
  exact ⟨rfl, rfl, rfl, (evalLoop_length ev _ ec _).1, (evalLoop_length ev _ ec _).2⟩

/-- Below the cap, a fail-only evaluator grades every bullet `fail`
(empty bullets fail on their own). -/
theorem evalLoop_allFail (ev : Nat → EvalResult) (itc : Nat) (hitc : itc < 5)
    (hev : ∀ n, (ev n).grade = .fail) :
    ∀ ec l, (evalLoop ev itc ec l).1 = List.replicate l.length "fail" := by
  intro ec l
  induction l generalizing ec with
  | nil => simp [evalLoop]
  | cons bp rest ih =>
    by_cases h : bp = ""
    · simp [evalLoop, h, ih ec, List.replicate_succ]
    · simp only [evalLoop, if_neg h, if_neg (by omega : ¬ itc ≥ 5)]
      simp [hev ec, ZGrade.toStr, ih (ec + 1), List.replicate_succ]

/-- At the cap, with no empty bullet, every grade is forced to `pass`;
with a fail-only evaluator every feedback entry is the evaluator feedback
of the corresponding consecutive call, prefixed by the forced-pass note. -/
theorem evalLoop_cap (ev : Nat → EvalResult) (itc : Nat) (hitc : 5 ≤ itc)
    (hev : ∀ n, (ev n).grade = .fail) :
    ∀ ec l, (∀ x ∈ l, x ≠ "") →
      (evalLoop ev itc ec l).1 = List.replicate l.length "pass" ∧
      (evalLoop ev itc ec l).2.1 = (List.range l.length).map
        (fun i => "Forced pass after 5 iterations. Original feedback: " ++ (ev (ec + i)).feedback) := by
  intro ec l hne
  induction l generalizing ec with
  | nil => simp [evalLoop]
  | cons bp rest ih =>
    have hbp : bp ≠ "" := hne bp (List.mem_cons_self bp rest)
    have hrest : ∀ x ∈ rest, x ≠ "" := fun x hx => hne x (List.mem_cons_of_mem _ hx)
    simp only [evalLoop, if_neg hbp, if_pos hitc, hev ec, if_pos rfl]
    refine ⟨by simp [(ih (ec + 1) hrest).1, List.replicate_succ], ?_⟩
    simp only [(ih (ec + 1) hrest).2, List.length_cons, List.range_succ_eq_map,
      List.map_cons, List.map_map, Nat.add_zero, List.cons.injEq]
    refine ⟨rfl, congrArg (fun f => List.map f (List.range rest.length)) (funext fun i => ?_)⟩
    simp only [Function.comp]
    congr 3
    omega

/-- Below the cap, with no empty bullet and an evaluator passing each of
the consulted calls, every grade is `pass`. -/
theorem evalLoop_allPass (ev : Nat → EvalResult) (itc : Nat) (hitc : itc < 5) :
    ∀ ec l, (∀ x ∈ l, x ≠ "") →
      (∀ n, ec ≤ n → n < ec + l.length → (ev n).grade = .pass) →
      (evalLoop ev itc ec l).1 = List.replicate l.length "pass" := by
  intro ec l
  induction l generalizing ec with
  | nil => simp [evalLoop]
  | cons bp rest ih =>
    intro hne hev
    have hbp : bp ≠ "" := hne bp (List.mem_cons_self bp rest)
    have hg : (ev ec).grade = .pass := hev ec le_rfl (by simp)
    simp only [evalLoop, if_neg hbp, if_neg (by omega : ¬ itc ≥ 5), hg]
    have := ih (ec + 1) (fun x hx => hne x (List.mem_cons_of_mem _ hx))
      (fun n h1 h2 => hev n (by omega) (by simpa [Nat.add_comm, Nat.add_left_comm] using by omega : n < ec + (bp :: rest).length))
    simp [this, ZGrade.toStr, List.replicate_succ]

/-! ## The optimizer loop -/

/-- The fuel of `optimizeLoop` is irrelevant as soon as it reaches
`MAX_ITERATIONS - iteration_count`: the guard `iteration_count <
MAX_ITERATIONS` fails no later than the fuel runs out, so the fuelled
loop agrees with the source `while` loop. -/
theorem optimizeLoop_fuel_irrel (gen : Nat → String) (ev : Nat → EvalResult) :
    ∀ f1 f2 gc ec ap s, MAX_ITERATIONS ≤ s.iteration_count + f1 →
      MAX_ITERATIONS ≤ s.iteration_count + f2 →
      optimizeLoop gen ev f1 gc ec ap s = optimizeLoop gen ev f2 gc ec ap s := by
  intro f1
  induction f1 with
  | zero =>
    intro f2 gc ec ap s h1 _
    cases f2 with
    | zero => rfl
    | succ f2 =>
      simp only [optimizeLoop]
      rw [if_neg]
      simp only [Bool.and_eq_true, Bool.not_eq_true', decide_eq_true_eq, not_and]
      intro _
      omega
  | succ f1 ih =>
    intro f2 gc ec ap s h1 h2
    cases f2 with
    | zero =>
      simp only [optimizeLoop]
      rw [if_neg]
      simp only [Bool.and_eq_true, Bool.not_eq_true', decide_eq_true_eq, not_and]
      intro _
      omega
    | succ f2 =>
      simp only [optimizeLoop]
      split
      · next hg =>
        have hc : (generateExperience gen gc s).1.iteration_count = s.iteration_count + 1 :=
          (generateExperience_fields gen gc s).1
        have hc2 : (evaluateBulletPoints ev ec (generateExperience gen gc s).1).1.iteration_count
            = s.iteration_count + 1 := by
          rw [(evaluateBulletPoints_fields ev ec _).1, hc]
        exact ih f2 _ _ _ _ (by omega) (by omega)
      · rfl

/-- The loop never decreases the iteration count. -/
theorem optimizeLoop_count_ge (gen : Nat → String) (ev : Nat → EvalResult) :
    ∀ fuel gc ec ap s,
      s.iteration_count ≤ (optimizeLoop gen ev fuel gc ec ap s).iteration_count := by
  intro fuel
  induction fuel with
  | zero => intro gc ec ap s; simp [optimizeLoop]
  | succ fuel ih =>
    intro gc ec ap s
    simp only [optimizeLoop]
    split
    · next hg =>
      have hc : (evaluateBulletPoints ev ec (generateExperience gen gc s).1).1.iteration_count
          = s.iteration_count + 1 := by
        rw [(evaluateBulletPoints_fields ev ec _).1, (generateExperience_fields gen gc s).1]
      have := ih (generateExperience gen gc s).2
        (evaluateBulletPoints ev ec (generateExperience gen gc s).1).2
        ((evaluateBulletPoints ev ec (generateExperience gen gc s).1).1.grades.all
          fun grade => grade == "pass")
        (evaluateBulletPoints ev ec (generateExperience gen gc s).1).1
      omega
    · exact le_rfl

/-- The loop never pushes the iteration count beyond `MAX_ITERATIONS`. -/
theorem optimizeLoop_count_le (gen : Nat → String) (ev : Nat → EvalResult) :
    ∀ fuel gc ec ap s, s.iteration_count ≤ MAX_ITERATIONS →
      (optimizeLoop gen ev fuel gc ec ap s).iteration_count ≤ MAX_ITERATIONS := by
  intro fuel
  induction fuel with
  | zero => intro gc ec ap s h; simpa [optimizeLoop] using h
  | succ fuel ih =>
    intro gc ec ap s h
    simp only [optimizeLoop]
    split
    · next hg =>
      apply ih
      rw [(evaluateBulletPoints_fields ev ec _).1, (generateExperience_fields gen gc s).1]
      simp only [Bool.and_eq_true, Bool.not_eq_true', decide_eq_true_eq] at hg
      omega
    · exact h

/-- The loop preserves the length-4 alignment invariant. -/
theorem optimizeLoop_lengths4 (gen : Nat → String) (ev : Nat → EvalResult) :
    ∀ fuel gc ec ap s, lengths4 s →
      lengths4 (optimizeLoop gen ev fuel gc ec ap s) := by
  intro fuel
  induction fuel with
  | zero => intro gc ec ap s h; simpa [optimizeLoop] using h
  | succ fuel ih =>
    intro gc ec ap s h
    simp only [optimizeLoop]
    split
    · next hg =>
      apply ih
      have hg4 := (generateExperience_fields gen gc s).2.2.2.2
      have he := evaluateBulletPoints_fields ev ec (generateExperience gen gc s).1
      refine ⟨?_, ?_, ?_⟩
      · rw [he.2.2.1]; exact hg4
      · rw [he.2.2.2.1]; exact hg4
      · rw [he.2.2.2.2]; exact hg4
    · exact h

/-- `evalLoop` grades an empty bullet `fail` with the fixed missing
message, at any index, regardless of the iteration count. -/
theorem evalLoop_empty_get (ev : Nat → EvalResult) (itc : Nat) :
    ∀ (l : List String) (ec i : Nat), l[i]? = some "" →
      ((evalLoop ev itc ec l).1)[i]? = some "fail" ∧
      ((evalLoop ev itc ec l).2.1)[i]? =
        some "Missing bullet point. Please generate a complete bullet point." := by
  intro l
  induction l with
  | nil => intro ec i h; simp at h
  | cons bp rest ih =>
    intro ec i h
    cases i with
    | zero =>
      simp only [List.getElem?_cons_zero, Option.some.injEq] at h
      simp [evalLoop, h]
    | succ i =>
      simp only [List.getElem?_cons_succ] at h
      by_cases hbp : bp = ""
      · simpa [evalLoop, hbp] using ih ec i h
      · simpa [evalLoop, hbp] using ih (ec + 1) i h

/-- One unfolding of the loop when the guard holds. -/
theorem optimizeLoop_step (gen : Nat → String) (ev : Nat → EvalResult)
    (fuel gc ec : Nat) (s : BulletPointState) (h : s.iteration_count < MAX_ITERATIONS) :
    optimizeLoop gen ev (fuel + 1) gc ec false s =
      optimizeLoop gen ev fuel (generateExperience gen gc s).2
        (evaluateBulletPoints ev ec (generateExperience gen gc s).1).2
        ((evaluateBulletPoints ev ec (generateExperience gen gc s).1).1.grades.all
          fun grade => grade == "pass")
        (evaluateBulletPoints ev ec (generateExperience gen gc s).1).1 := by
  simp only [optimizeLoop, Bool.not_false, Bool.true_and, decide_eq_true_eq]
  rw [if_pos h]

/-! ## Claims C1 and C3 -/

/-- C1: for every job title and all oracle responses, every state
produced during `optimizeResumeBullets` — the initial state, the state
after any `generateExperience` call, and the state after any
`evaluateBulletPoints` call on such a state — has `bullet_points`,
`grades` and `feedback` of length exactly 4, and the returned state has
`iteration_count` between 1 and 5.  (Every state arising in the run is
one of the three shapes covered by the first three conjuncts.) -/
theorem claim_C1 (gen : Nat → String) (ev : Nat → EvalResult) (job : String)
    (gc ec : Nat) (s : BulletPointState) :
    lengths4 (initialState job) ∧
    lengths4 (generateExperience gen gc s).1 ∧
    (lengths4 s → lengths4 (evaluateBulletPoints ev ec s).1) ∧
    lengths4 (optimizeResumeBullets gen ev job) ∧
    1 ≤ (optimizeResumeBullets gen ev job).iteration_count ∧
    (optimizeResumeBullets gen ev job).iteration_count ≤ MAX_ITERATIONS := by
  have hg := generateExperience_fields gen gc s
  have he := evaluateBulletPoints_fields ev ec s
  refine ⟨⟨rfl, rfl, rfl⟩, ⟨hg.2.2.2.2, by simp [hg.2.2.1], by simp [hg.2.2.2.1]⟩, ?_, ?_, ?_, ?_⟩
  · intro hs
    exact ⟨by rw [he.2.2.1]; exact hs.1, by rw [he.2.2.2.1]; exact hs.1,
      by rw [he.2.2.2.2]; exact hs.1⟩
  · exact optimizeLoop_lengths4 gen ev _ _ _ _ _ ⟨rfl, rfl, rfl⟩
  · show 1 ≤ (optimizeLoop gen ev MAX_ITERATIONS 0 0 false (initialState job)).iteration_count
    have h1 : (evaluateBulletPoints ev 0 (generateExperience gen 0 (initialState job)).1).1.iteration_count = 1 := by
      rw [(evaluateBulletPoints_fields ev 0 _).1, (generateExperience_fields gen 0 _).1]
      rfl
    have h2 := optimizeLoop_count_ge gen ev 4
      (generateExperience gen 0 (initialState job)).2
      (evaluateBulletPoints ev 0 (generateExperience gen 0 (initialState job)).1).2
      ((evaluateBulletPoints ev 0 (generateExperience gen 0 (initialState job)).1).1.grades.all
        fun grade => grade == "pass")
      (evaluateBulletPoints ev 0 (generateExperience gen 0 (initialState job)).1).1
    rw [show (MAX_ITERATIONS : Nat) = 4 + 1 from rfl,
      optimizeLoop_step gen ev 4 0 0 (initialState job) (by simp [initialState, MAX_ITERATIONS])]
    omega
  · exact optimizeLoop_count_le gen ev _ _ _ _ _ (by simp [initialState, MAX_ITERATIONS])

/-- Witness for C1 at concrete oracles, a concrete job and a concrete state. -/
theorem claim_C1_witness :
    lengths4 (initialState "SE") ∧
    lengths4 (generateExperience genW 0 stateAtCapW).1 ∧
    lengths4 (evaluateBulletPoints evPassW 0 stateAtCapW).1 ∧
    lengths4 (optimizeResumeBullets genW evPassW "SE") ∧
    1 ≤ (optimizeResumeBullets genW evPassW "SE").iteration_count ∧
    (optimizeResumeBullets genW evPassW "SE").iteration_count ≤ MAX_ITERATIONS := by
  have h := claim_C1 genW evPassW "SE" 0 0 stateAtCapW
  exact ⟨h.1, h.2.1, h.2.2.1 (by decide), h.2.2.2.1, h.2.2.2.2.1, h.2.2.2.2.2⟩

/-- C3: `evaluateBulletPoints` grades an empty bullet slot `fail` with
the fixed missing-bullet message even at the iteration cap (the
forced-pass override applies only to bullets actually submitted to the
evaluator); consequently, when the fill-in generation calls at the cap
return empty strings, `optimizeResumeBullets` returns a state at the cap
whose grades contain `"fail"` (second conjunct: a concrete such run). -/
theorem claim_C3 :
    (∀ (ev : Nat → EvalResult) (ec : Nat) (s : BulletPointState) (i : Nat),
      5 ≤ s.iteration_count → s.bullet_points[i]? = some "" →
        ((evaluateBulletPoints ev ec s).1.grades)[i]? = some "fail" ∧
        ((evaluateBulletPoints ev ec s).1.feedback)[i]? =
          some "Missing bullet point. Please generate a complete bullet point.") ∧
    ((optimizeResumeBullets genBlankW evFailW "Backend Engineer").iteration_count = 5 ∧
     "fail" ∈ (optimizeResumeBullets genBlankW evFailW "Backend Engineer").grades) := by
  refine ⟨?_, by decide, by decide⟩
  intro ev ec s i _ h
  exact evalLoop_empty_get ev s.iteration_count s.bullet_points ec i h

/-- Witness for C3 at a concrete state with an empty first bullet at the cap. -/
theorem claim_C3_witness :
    5 ≤ stateAtCapW.iteration_count ∧ stateAtCapW.bullet_points[0]? = some "" ∧
    ((evaluateBulletPoints evFailW 0 stateAtCapW).1.grades)[0]? = some "fail" ∧
    ((evaluateBulletPoints evFailW 0 stateAtCapW).1.feedback)[0]? =
      some "Missing bullet point. Please generate a complete bullet point." := by
  refine ⟨by decide, by decide, ?_, ?_⟩
  · exact ((claim_C3.1) evFailW 0 stateAtCapW 0 (by decide) (by decide)).1
  · exact ((claim_C3.1) evFailW 0 stateAtCapW 0 (by decide) (by decide)).2

/-- When `allPassed` is already true the loop stops at once. -/
theorem optimizeLoop_allPassed (gen : Nat → String) (ev : Nat → EvalResult)
    (fuel gc ec : Nat) (s : BulletPointState) :
    optimizeLoop gen ev fuel gc ec true s = s := by
  cases fuel with
  | zero => rfl
  | succ fuel => simp [optimizeLoop]

/-- The run of the loop under a fail-only evaluator and non-blank
generation responses, from any state whose iteration count is `5 - fuel`
with at least one round left: it ends at the cap with all grades forced
to `pass` and four consecutive prefixed evaluator feedbacks. -/
theorem optimizeLoop_allFail_run (gen : Nat → String) (ev : Nat → EvalResult)
    (hev : ∀ n, (ev n).grade = .fail) (hgen : ∀ n, jsTrimStr (gen n) ≠ "") :
    ∀ fuel gc ec s, s.iteration_count + fuel = 5 → 1 ≤ fuel →
      (optimizeLoop gen ev fuel gc ec false s).iteration_count = 5 ∧
      (optimizeLoop gen ev fuel gc ec false s).grades = ["pass", "pass", "pass", "pass"] ∧
      ∃ m, (optimizeLoop gen ev fuel gc ec false s).feedback =
        ["Forced pass after 5 iterations. Original feedback: " ++ (ev m).feedback,
         "Forced pass after 5 iterations. Original feedback: " ++ (ev (m + 1)).feedback,
         "Forced pass after 5 iterations. Original feedback: " ++ (ev (m + 2)).feedback,
         "Forced pass after 5 iterations. Original feedback: " ++ (ev (m + 3)).feedback] := by
  intro fuel
  induction fuel with
  | zero => intro gc ec s _ h1; omega
  | succ fuel ih =>
    intro gc ec s hsum _
    have hlt : s.iteration_count < MAX_ITERATIONS := by
      simp only [MAX_ITERATIONS]; omega
    rw [optimizeLoop_step gen ev fuel gc ec s hlt]
    have hgc := generateExperience_fields gen gc s
    have hec := evaluateBulletPoints_fields ev ec (generateExperience gen gc s).1
    cases fuel with
    | zero =>
      have hne : ∀ x ∈ (generateExperience gen gc s).1.bullet_points, x ≠ "" :=
        generateExperience_ne_empty gen gc s (by omega) hgen
      have hitc5 : 5 ≤ (generateExperience gen gc s).1.iteration_count := by
        rw [hgc.1]; omega
      have hcap := evalLoop_cap ev _ hitc5 hev ec _ hne
      have hlen := hgc.2.2.2.2
      have hgr : (evaluateBulletPoints ev ec (generateExperience gen gc s).1).1.grades
          = ["pass", "pass", "pass", "pass"] := by
        simp only [evaluateBulletPoints]
        rw [hcap.1, hlen]
        rfl
      have hfb : (evaluateBulletPoints ev ec (generateExperience gen gc s).1).1.feedback
          = ["Forced pass after 5 iterations. Original feedback: " ++ (ev ec).feedback,
             "Forced pass after 5 iterations. Original feedback: " ++ (ev (ec + 1)).feedback,
             "Forced pass after 5 iterations. Original feedback: " ++ (ev (ec + 2)).feedback,
             "Forced pass after 5 iterations. Original feedback: " ++ (ev (ec + 3)).feedback] := by
        simp only [evaluateBulletPoints]
        rw [hcap.2, hlen]
        simp [show List.range 4 = [0, 1, 2, 3] from rfl]
      rw [hgr]
      rw [show (["pass", "pass", "pass", "pass"].all fun grade => grade == "pass") = true
        from rfl]
      rw [optimizeLoop_allPassed]
      exact ⟨by rw [hec.1, hgc.1]; omega, hgr, ec, hfb⟩
    | succ f =>
      have hlt2 : (generateExperience gen gc s).1.iteration_count < 5 := by
        rw [hgc.1]; omega
      have hgr : (evaluateBulletPoints ev ec (generateExperience gen gc s).1).1.grades
          = List.replicate 4 "fail" := by
        simp only [evaluateBulletPoints]
        rw [evalLoop_allFail ev _ hlt2 hev ec _, hgc.2.2.2.2]
      have hap : ((evaluateBulletPoints ev ec (generateExperience gen gc s).1).1.grades.all
          fun grade => grade == "pass") = false := by
        rw [hgr]; rfl
      rw [hap]
      exact ih _ _ _ (by rw [hec.1, hgc.1]; omega) (by omega)

/-! ## Claims C2 and C5 -/

/-- C2: for every job title, a fail-only evaluation oracle (together
with generation responses that trim non-blank, so that the fill-in calls
at the cap leave no empty bullet — claim C3 covers the blank case)
drives `optimizeResumeBullets` through exactly 5 generate/evaluate
iterations; the returned grades are all forced to `"pass"`, and each
returned feedback entry is the corresponding evaluator feedback prefixed
by the forced-pass note. -/
theorem claim_C2 (gen : Nat → String) (ev : Nat → EvalResult) (job : String)
    (hev : ∀ n, (ev n).grade = ZGrade.fail) (hgen : ∀ n, jsTrimStr (gen n) ≠ "") :
    (optimizeResumeBullets gen ev job).iteration_count = 5 ∧
    (optimizeResumeBullets gen ev job).grades = ["pass", "pass", "pass", "pass"] ∧
    ∃ m, (optimizeResumeBullets gen ev job).feedback =
      ["Forced pass after 5 iterations. Original feedback: " ++ (ev m).feedback,
       "Forced pass after 5 iterations. Original feedback: " ++ (ev (m + 1)).feedback,
       "Forced pass after 5 iterations. Original feedback: " ++ (ev (m + 2)).feedback,
       "Forced pass after 5 iterations. Original feedback: " ++ (ev (m + 3)).feedback] :=
  optimizeLoop_allFail_run gen ev hev hgen 5 0 0 (initialState job) rfl (by omega)

/-- Witness for C2 at concrete oracles. -/
theorem claim_C2_witness :
    (∀ n, (evFailW n).grade = ZGrade.fail) ∧
    (∀ n, jsTrimStr (genW n) ≠ "") ∧
    (optimizeResumeBullets genW evFailW "SE").iteration_count = 5 ∧
    (optimizeResumeBullets genW evFailW "SE").grades = ["pass", "pass", "pass", "pass"] ∧
    ∃ m, (optimizeResumeBullets genW evFailW "SE").feedback =
      ["Forced pass after 5 iterations. Original feedback: " ++ (evFailW m).feedback,
       "Forced pass after 5 iterations. Original feedback: " ++ (evFailW (m + 1)).feedback,
       "Forced pass after 5 iterations. Original feedback: " ++ (evFailW (m + 2)).feedback,
       "Forced pass after 5 iterations. Original feedback: " ++ (evFailW (m + 3)).feedback] := by
  have hg : ∀ n, jsTrimStr (genW n) ≠ "" :=
    fun _ => (by decide : jsTrimStr "- alpha\n- beta\n- gamma\n- delta" ≠ "")
  have h := claim_C2 genW evFailW "SE" (fun n => rfl) hg
  exact ⟨fun n => rfl, hg, h.1, h.2.1, h.2.2⟩

/-- C5: if the first-iteration bullets are all non-empty and the
evaluator passes each of its first four calls, `optimizeResumeBullets`
stops after exactly one iteration: the returned state has
`iteration_count = 1` and is exactly the result of one
`generateExperience` call followed by one `evaluateBulletPoints` pass
from the initial state. -/
theorem claim_C5 (gen : Nat → String) (ev : Nat → EvalResult) (job : String)
    (hev : ∀ n, n < 4 → (ev n).grade = ZGrade.pass)
    (hbp : ∀ bp ∈ (generateExperience gen 0 (initialState job)).1.bullet_points, bp ≠ "") :
    (optimizeResumeBullets gen ev job).iteration_count = 1 ∧
    optimizeResumeBullets gen ev job =
      (evaluateBulletPoints ev 0 (generateExperience gen 0 (initialState job)).1).1 := by
  have hgc := generateExperience_fields gen 0 (initialState job)
  have hec := evaluateBulletPoints_fields ev 0 (generateExperience gen 0 (initialState job)).1
  have hitc : (generateExperience gen 0 (initialState job)).1.iteration_count < 5 := by
    rw [hgc.1]; simp [initialState]
  have hpass := evalLoop_allPass ev _ hitc 0
    (generateExperience gen 0 (initialState job)).1.bullet_points hbp
    (fun n h1 h2 => hev n (by rw [hgc.2.2.2.2] at h2; omega))
  have hgr : (evaluateBulletPoints ev 0 (generateExperience gen 0 (initialState job)).1).1.grades
      = List.replicate 4 "pass" := by
    simp only [evaluateBulletPoints]
    rw [hpass, hgc.2.2.2.2]
  have hap : ((evaluateBulletPoints ev 0 (generateExperience gen 0 (initialState job)).1).1.grades.all
      fun grade => grade == "pass") = true := by
    rw [hgr]; rfl
  have hrun : optimizeResumeBullets gen ev job =
      (evaluateBulletPoints ev 0 (generateExperience gen 0 (initialState job)).1).1 := by
    show optimizeLoop gen ev MAX_ITERATIONS 0 0 false (initialState job) = _
    rw [show (MAX_ITERATIONS : Nat) = 4 + 1 from rfl,
      optimizeLoop_step gen ev 4 0 0 (initialState job) (by simp [initialState, MAX_ITERATIONS]),
      hap, optimizeLoop_allPassed]
  refine ⟨?_, hrun⟩
  rw [hrun, hec.1, hgc.1]
  rfl

/-- Witness for C5 at concrete oracles. -/
theorem claim_C5_witness :
    (∀ n, n < 4 → (evPassW n).grade = ZGrade.pass) ∧
    (∀ bp ∈ (generateExperience genW 0 (initialState "SE")).1.bullet_points, bp ≠ "") ∧
    (optimizeResumeBullets genW evPassW "SE").iteration_count = 1 ∧
    optimizeResumeBullets genW evPassW "SE" =
      (evaluateBulletPoints evPassW 0 (generateExperience genW 0 (initialState "SE")).1).1 := by
  have h := claim_C5 genW evPassW "SE" (fun n _ => rfl) (by decide)
  exact ⟨fun n _ => rfl, by decide, h.1, h.2⟩

/-! ## The pdf-parser polling loop -/

/-- The fuel of `pollLoop` is irrelevant as soon as it reaches
`MAX_RETRIES - retryCount`: the guard `retryCount < MAX_RETRIES` fails
no later than the fuel runs out, so the fuelled loop agrees with the
source `while` loop (the handler starts it at `retryCount = 0` with fuel
`MAX_RETRIES`). -/
theorem pollLoop_fuel_irrel (env : PdfEnv) :
    ∀ f1 f2 rc, API_CONFIG.MAX_RETRIES ≤ rc + f1 → API_CONFIG.MAX_RETRIES ≤ rc + f2 →
      pollLoop env f1 rc = pollLoop env f2 rc := by
  intro f1
  induction f1 with
  | zero =>
    intro f2 rc h1 _
    cases f2 with
    | zero => rfl
    | succ f2 =>
      simp only [pollLoop]
      rw [if_neg (by omega)]
  | succ f1 ih =>
    intro f2 rc h1 h2
    cases f2 with
    | zero =>
      simp only [pollLoop]
      rw [if_neg (by omega)]
    | succ f2 =>
      simp only [pollLoop]
      split
      · next hg =>
        rw [ih f2 (rc + 1) (by omega) (by omega)]
      · rfl

/-- A run in which every one of the first 60 polls is a live
non-terminal response consumes all 60 polls and exits incomplete. -/
theorem pollLoop_processing (env : PdfEnv)
    (h : ∀ n, 1 ≤ n → n ≤ API_CONFIG.MAX_RETRIES →
      env.statusOk n = true ∧
      (env.statusStatus n).map (fun s => String.mk (lowerStr s.data)) ≠ some "completed" ∧
      (env.statusStatus n).map (fun s => String.mk (lowerStr s.data)) ≠ some "failed" ∧
      env.statusError n = none) :
    ∀ fuel rc, fuel + rc = API_CONFIG.MAX_RETRIES →
      pollLoop env fuel rc =
        (.ok none, (List.range fuel).map fun i => .netStatus (rc + 1 + i)) := by
  intro fuel
  induction fuel with
  | zero => intro rc _; rfl
  | succ fuel ih =>
    intro rc hsum
    have hn := h (rc + 1) (by omega) (by omega)
    simp only [pollLoop]
    rw [if_pos (by omega), if_neg (by simp [hn.1]), if_neg hn.2.1,
      if_neg (by simp [hn.2.2.1, hn.2.2.2])]
    rw [ih (rc + 1) (by omega)]
    have hlist : (PdfEffect.netStatus (rc + 1) ::
        (List.range fuel).map fun i => PdfEffect.netStatus (rc + 1 + 1 + i)) =
        (List.range (fuel + 1)).map fun i => PdfEffect.netStatus (rc + 1 + i) := by
      rw [List.range_succ_eq_map, List.map_cons, List.map_map]
      refine congrArg₂ _ (by simp) ?_
      refine congrArg (fun f => List.map f (List.range fuel)) (funext fun i => ?_)
      simp only [Function.comp]
      congr 1
      omega
    exact congrArg (Prod.mk (Except.ok none)) hlist

/-! ## Claims C6, C7, C8, C9 -/

/-- C6 fails as stated: the empty string is a present `resultType`
value outside `{markdown, text, json}`, yet for `?resultType=` the
source's `searchParams.get('resultType') || 'markdown'` treats the
present empty string as falsy and defaults it, so the handler proceeds
to upload and poll instead of returning 400.  Here the provider never
completes, so the run stages the file, uploads, polls 60 times and
times out with a 500 — the response is not 400 and network calls were
made. -/
theorem claim_C6_counterexample :
    pdfEnvEmptyRTW.resultTypeParam = some "" ∧
    ("" : String) ≠ "markdown" ∧ ("" : String) ≠ "text" ∧ ("" : String) ≠ "json" ∧
    (POST_pdfParse pdfEnvEmptyRTW).1.status = 500 ∧
    PdfEffect.netUpload ∈ (POST_pdfParse pdfEnvEmptyRTW).2 ∧
    PdfEffect.netStatus 1 ∈ (POST_pdfParse pdfEnvEmptyRTW).2 :=
  ⟨rfl, by decide, by decide, by decide, by decide, by decide, by decide⟩

/-- C6 (amended): a present **non-empty** `resultType` query parameter
outside `{markdown, text, json}` makes the pdf-parser handler return
the 400 invalid-argument response with an empty effect trace — in
particular no upload, no status poll, no result fetch, and no file
staging.  (A present empty value is falsy in JS and is defaulted to
`markdown`, see `claim_C6_counterexample`.) -/
theorem claim_C6 (env : PdfEnv) (rt : String) (hp : env.resultTypeParam = some rt)
    (hne : rt ≠ "")
    (h1 : rt ≠ "markdown") (h2 : rt ≠ "text") (h3 : rt ≠ "json") :
    POST_pdfParse env =
      ({ status := 400, body := "Invalid result type. Supported types are: markdown, text, json" },
       []) := by
  simp only [POST_pdfParse, hp, jsOrDefault]
  rw [if_neg hne]
  rw [if_pos (by simp [h1, h2, h3])]

/-- Witness for the amended C6 with `resultType = "xml"`. -/
theorem claim_C6_witness :
    pdfEnvXmlW.resultTypeParam = some "xml" ∧
    POST_pdfParse pdfEnvXmlW =
      ({ status := 400, body := "Invalid result type. Supported types are: markdown, text, json" },
       []) :=
  ⟨rfl, claim_C6 pdfEnvXmlW "xml" rfl (by decide) (by decide) (by decide) (by decide)⟩

/-- One unfolding of the polling loop in the failed-or-error case. -/
theorem pollLoop_fail_now (env : PdfEnv) (fuel rc : Nat)
    (h : rc < API_CONFIG.MAX_RETRIES)
    (hok : env.statusOk (rc + 1) = true)
    (hnc : (env.statusStatus (rc + 1)).map (fun s => String.mk (lowerStr s.data)) ≠ some "completed")
    (hfail : (env.statusStatus (rc + 1)).map (fun s => String.mk (lowerStr s.data)) = some "failed" ∨
             (env.statusError (rc + 1)).isSome) :
    pollLoop env (fuel + 1) rc =
      (.error ("Parsing job failed: " ++ ((env.statusError (rc + 1)).getD "Unknown error")),
       [.netStatus (rc + 1)]) := by
  simp only [pollLoop]
  rw [if_pos h, if_neg (by simp [hok]), if_neg hnc,
    if_pos (by rcases hfail with hx | hx <;> simp [hx])]

/-- The handler, once it passes validation, API-key and file checks,
returns the outcome of `afterSave` wrapped by the `catch` block, with
the staged-file write first and the `finally` unlink last. -/
theorem POST_pdfParse_reach (env : PdfEnv)
    (hrt : jsOrDefault env.resultTypeParam "markdown" = "markdown" ∨
           jsOrDefault env.resultTypeParam "markdown" = "text" ∨
           jsOrDefault env.resultTypeParam "markdown" = "json")
    (hkey : env.apiKey.isSome) (hfile : env.hasFile = true) :
    POST_pdfParse env =
      ((match (afterSave env).1 with
        | .ok res => { status := 200, body := res }
        | .error e => { status := 500, body := e }),
       .tmpWrite :: (afterSave env).2 ++ [.tmpDelete]) := by
  obtain ⟨k, hk⟩ := Option.isSome_iff_exists.1 hkey
  have hcond : ¬((!(jsOrDefault env.resultTypeParam "markdown" = "markdown" ||
      jsOrDefault env.resultTypeParam "markdown" = "text" ||
      jsOrDefault env.resultTypeParam "markdown" = "json")) = true) := by
    rcases hrt with h | h | h <;> simp [h]
  simp only [POST_pdfParse, hk, hfile]
  rw [if_neg hcond]
  rw [if_neg (by decide : ¬((true : Bool) = false))]
  cases hafter : (afterSave env).1 with
  | ok res => rfl
  | error e => rfl

/-- C7: when the upload yields a job id and the first status poll
normalizes to `"failed"` or carries an explicit error field (and is not
a `"completed"` response, which the source checks first), the handler
fails with the provider-reported error after exactly one status poll:
the trace contains the single poll `netStatus 1` and none of the
remaining 59 retries. -/
theorem claim_C7 (env : PdfEnv)
    (hrt : jsOrDefault env.resultTypeParam "markdown" = "markdown" ∨
           jsOrDefault env.resultTypeParam "markdown" = "text" ∨
           jsOrDefault env.resultTypeParam "markdown" = "json")
    (hkey : env.apiKey.isSome) (hfile : env.hasFile = true)
    (hup : env.uploadOk = true)
    (hjob : (env.upload_job_id.orElse fun _ => env.upload_id).isSome)
    (hok : env.statusOk 1 = true)
    (hnc : (env.statusStatus 1).map (fun s => String.mk (lowerStr s.data)) ≠ some "completed")
    (hfail : (env.statusStatus 1).map (fun s => String.mk (lowerStr s.data)) = some "failed" ∨
             (env.statusError 1).isSome) :
    POST_pdfParse env =
      ({ status := 500,
         body := "Parsing job failed: " ++ ((env.statusError 1).getD "Unknown error") },
       [.tmpWrite, .netUpload, .netStatus 1, .tmpDelete]) := by
  have hpoll : pollLoop env API_CONFIG.MAX_RETRIES 0 =
      (.error ("Parsing job failed: " ++ ((env.statusError 1).getD "Unknown error")),
       [.netStatus 1]) := by
    rw [show API_CONFIG.MAX_RETRIES = 59 + 1 from rfl]
    exact pollLoop_fail_now env 59 0 (by decide) hok hnc hfail
  obtain ⟨j, hj⟩ := Option.isSome_iff_exists.1 hjob
  have hafter : afterSave env =
      (.error ("Parsing job failed: " ++ ((env.statusError 1).getD "Unknown error")),
       [.netUpload, .netStatus 1]) := by
    simp only [afterSave, hup, hj, hpoll]
    rw [if_neg (by decide : ¬((true : Bool) = false))]
  rw [POST_pdfParse_reach env hrt hkey hfile, hafter]
  rfl

/-- Witness for C7: provider reports `FAILED` with an error field on the
first poll. -/
theorem claim_C7_witness :
    pdfEnvFailW.statusOk 1 = true ∧
    (pdfEnvFailW.statusStatus 1).map (fun s => String.mk (lowerStr s.data)) = some "failed" ∧
    POST_pdfParse pdfEnvFailW =
      ({ status := 500, body := "Parsing job failed: bad pdf" },
       [.tmpWrite, .netUpload, .netStatus 1, .tmpDelete]) := by
  refine ⟨rfl, by decide, ?_⟩
  have h := claim_C7 pdfEnvFailW (Or.inl rfl) rfl rfl rfl rfl rfl (by decide) (Or.inl (by decide))
  exact h

/-- C8: when the upload yields a job id and none of the 60 status polls
is terminal (never `"completed"`/`"failed"` after case-insensitive
normalization, no error field, all polls HTTP-ok), the handler performs
exactly 60 polls and fails with the timeout message naming the
180-second bound (`MAX_RETRIES = 60` polls at `POLLING_INTERVAL = 3000`
ms). -/
theorem claim_C8 (env : PdfEnv)
    (hrt : jsOrDefault env.resultTypeParam "markdown" = "markdown" ∨
           jsOrDefault env.resultTypeParam "markdown" = "text" ∨
           jsOrDefault env.resultTypeParam "markdown" = "json")
    (hkey : env.apiKey.isSome) (hfile : env.hasFile = true)
    (hup : env.uploadOk = true)
    (hjob : (env.upload_job_id.orElse fun _ => env.upload_id).isSome)
    (h : ∀ n, 1 ≤ n → n ≤ API_CONFIG.MAX_RETRIES →
      env.statusOk n = true ∧
      (env.statusStatus n).map (fun s => String.mk (lowerStr s.data)) ≠ some "completed" ∧
      (env.statusStatus n).map (fun s => String.mk (lowerStr s.data)) ≠ some "failed" ∧
      env.statusError n = none) :
    POST_pdfParse env =
      ({ status := 500, body := "PDF parsing timed out after 180 seconds" },
       .tmpWrite :: .netUpload ::
         ((List.range API_CONFIG.MAX_RETRIES).map fun i => .netStatus (1 + i)) ++ [.tmpDelete]) ∧
    ((POST_pdfParse env).2.countP isNetStatus) = 60 := by
  have hpoll := pollLoop_processing env h API_CONFIG.MAX_RETRIES 0 (by rfl)
  obtain ⟨j, hj⟩ := Option.isSome_iff_exists.1 hjob
  have hafter : afterSave env =
      (.error "PDF parsing timed out after 180 seconds",
       .netUpload :: (List.range API_CONFIG.MAX_RETRIES).map fun i => .netStatus (1 + i)) := by
    simp only [afterSave, hup, hj, hpoll]
    rw [if_neg (by decide : ¬((true : Bool) = false))]
    rfl
  have hmain : POST_pdfParse env =
      ({ status := 500, body := "PDF parsing timed out after 180 seconds" },
       .tmpWrite :: .netUpload ::
         ((List.range API_CONFIG.MAX_RETRIES).map fun i => .netStatus (1 + i)) ++ [.tmpDelete]) := by
    rw [POST_pdfParse_reach env hrt hkey hfile, hafter]
  refine ⟨hmain, ?_⟩
  rw [hmain]
  simp only [List.countP_cons, List.countP_append, isNetStatus, List.countP_map]
  rw [show (List.countP ((fun e => isNetStatus e) ∘ fun i => PdfEffect.netStatus (1 + i))
      (List.range API_CONFIG.MAX_RETRIES)) = List.countP (fun _ => true) (List.range API_CONFIG.MAX_RETRIES) from rfl]
  simp [List.countP_true, API_CONFIG, isNetStatus]

/-- Witness for C8: the provider reports `PROCESSING` forever. -/
theorem claim_C8_witness :
    pdfEnvBaseW.uploadOk = true ∧
    POST_pdfParse pdfEnvBaseW =
      ({ status := 500, body := "PDF parsing timed out after 180 seconds" },
       .tmpWrite :: .netUpload ::
         ((List.range API_CONFIG.MAX_RETRIES).map fun i => .netStatus (1 + i)) ++ [.tmpDelete]) ∧
    ((POST_pdfParse pdfEnvBaseW).2.countP isNetStatus) = 60 := by
  have hproc : ∀ n : Nat,
      (pdfEnvBaseW.statusStatus n).map (fun s => String.mk (lowerStr s.data)) ≠ some "completed" ∧
      (pdfEnvBaseW.statusStatus n).map (fun s => String.mk (lowerStr s.data)) ≠ some "failed" := by
    intro n
    show (some (String.mk (lowerStr "PROCESSING".data)) : Option String) ≠ some "completed" ∧
      (some (String.mk (lowerStr "PROCESSING".data)) : Option String) ≠ some "failed"
    exact ⟨by decide, by decide⟩
  have h := claim_C8 pdfEnvBaseW (Or.inl rfl) rfl rfl rfl rfl
    (fun n h1 h2 => ⟨rfl, (hproc n).1, (hproc n).2, rfl⟩)
  exact ⟨rfl, h.1, h.2⟩

/-- C9: on every execution path of the pdf-parser handler, if the staged
temporary file was created (`tmpWrite` occurs in the trace) then the
trace ends with its removal (`tmpDelete`): no exit path leaves the
staged file on disk. -/
theorem claim_C9 (env : PdfEnv)
    (h : PdfEffect.tmpWrite ∈ (POST_pdfParse env).2) :
    (POST_pdfParse env).2.getLast? = some PdfEffect.tmpDelete := by
  revert h
  simp only [POST_pdfParse]
  split
  · intro h; simp at h
  · split
    · intro h; simp at h
    · split
      · intro h; simp at h
      · split <;>
        · intro _
          rw [show ∀ (a b : PdfEffect) (l : List PdfEffect), a :: l ++ [b] = (a :: l) ++ [b]
            from fun a b l => rfl]
          exact List.getLast?_concat _

/-- Witness for C9 on a run that stages the file (the timeout run). -/
theorem claim_C9_witness :
    PdfEffect.tmpWrite ∈ (POST_pdfParse pdfEnvBaseW).2 ∧
    (POST_pdfParse pdfEnvBaseW).2.getLast? = some PdfEffect.tmpDelete := by
  refine ⟨by decide, claim_C9 pdfEnvBaseW (by decide)⟩

/-! ## Claim C10 -/

/-- C10: on the create path (no `resumeId`), when the `resumes` insert
succeeds but the version-1 insert into `resume_versions` fails, the
handler still returns HTTP 200 with the message
`"Resume created successfully, but version tracking failed"`, the new
resume id and the failure as a warning; the attempted operations are
exactly the two inserts — in particular the inserted resume row is never
rolled back (no delete is issued). -/
theorem claim_C10 (env : SaveEnv) (hjson : env.jsonOk = true)
    (hp : env.payloadPresent = true) (hu : env.userIdPresent = true)
    (hr : env.resumeId = none) (hc : env.createError = none)
    (w : String) (hw : env.createVersionError = some w) :
    POST_resumeSave env =
      ({ status := 200,
         body := { message := some "Resume created successfully, but version tracking failed",
                   resumeId := some env.newResumeId, warning := some w } },
       [.insertResumes, .insertVersions]) ∧
    DbEffect.deleteResumes ∉ (POST_resumeSave env).2 := by
  have hmain : POST_resumeSave env =
      ({ status := 200,
         body := { message := some "Resume created successfully, but version tracking failed",
                   resumeId := some env.newResumeId, warning := some w } },
       [.insertResumes, .insertVersions]) := by
    simp only [POST_resumeSave, hjson, hp, hu, hr, hc, hw]
    rw [if_neg (by decide : ¬((true : Bool) = false)),
      if_neg (by decide : ¬((true : Bool) = false)),
      if_neg (by decide : ¬((true : Bool) = false))]
  exact ⟨hmain, by
    rw [hmain]
    exact (by decide :
      DbEffect.deleteResumes ∉ [DbEffect.insertResumes, DbEffect.insertVersions])⟩

/-- Witness for C10 at a concrete environment. -/
theorem claim_C10_witness :
    saveEnvW.createError = none ∧ saveEnvW.createVersionError = some "rls violation" ∧
    POST_resumeSave saveEnvW =
      ({ status := 200,
         body := { message := some "Resume created successfully, but version tracking failed",
                   resumeId := some "r-123", warning := some "rls violation" } },
       [.insertResumes, .insertVersions]) ∧
    DbEffect.deleteResumes ∉ (POST_resumeSave saveEnvW).2 := by
  have h := claim_C10 saveEnvW rfl rfl rfl rfl rfl "rls violation" rfl
  exact ⟨rfl, rfl, h.1, h.2⟩

/-! ## Lemmas for the extraction claim C4 -/

/-- `split('\n')` peels one newline-free line at a time. -/
theorem splitNl_append (l1 rest : List Char) (h : '\n' ∉ l1) :
    splitNl (l1 ++ '\n' :: rest) = l1 :: splitNl rest := by
  induction l1 with
  | nil => simp [splitNl]
  | cons c t ih =>
    have hc : c ≠ '\n' := fun hc => h (hc ▸ List.mem_cons_self c t)
    simp only [List.cons_append, splitNl, List.append_eq]
    rw [if_neg hc, ih fun hm => h (List.mem_cons_of_mem c hm)]

/-- `split('\n')` of a newline-free text is that single segment. -/
theorem splitNl_no_nl (l : List Char) (h : '\n' ∉ l) : splitNl l = [l] := by
  induction l with
  | nil => rfl
  | cons c t ih =>
    have hc : c ≠ '\n' := fun hc => h (hc ▸ List.mem_cons_self c t)
    simp only [splitNl]
    rw [if_neg hc, ih fun hm => h (List.mem_cons_of_mem c hm)]

/-- The bullet lookahead holds at a newline followed by a marker. -/
theorem bulletLA_nl_marker (c : Char) (l : List Char) (h : isMarker c = true) :
    bulletLA ('\n' :: c :: l) = true := by
  simp [bulletLA, h]

/-- The numbered lookahead holds at a newline followed by a digit run
and a dot. -/
theorem numLA_nl_digits (d q : List Char) (hd : d ≠ [])
    (hdd : ∀ x ∈ d, isDigitCh x = true) :
    numLA ('\n' :: (d ++ ('.' :: q))) = true := by
  cases d with
  | nil => exact absurd rfl hd
  | cons a d' =>
    have ha : isDigitCh a = true := hdd a (List.mem_cons_self a d')
    have hdw : List.dropWhile isDigitCh (a :: (d' ++ ('.' :: q))) = '.' :: q := by
      rw [show a :: (d' ++ ('.' :: q)) = (a :: d') ++ ('.' :: q) from rfl]
      rw [dropWhile_append_all _ _ _ hdd, List.dropWhile_cons, if_neg (by decide)]
    simp only [numLA, List.cons_append, List.takeWhile_cons, List.append_eq]
    rw [if_pos ha]
    simp [hdw]

/-- The content of a dash line (a space then a nonblank newline-free
content) is not all-whitespace. -/
theorem body_hasNonWS (c : List Char) (hc : jsTrim c ≠ []) :
    ¬ ∀ x ∈ ' ' :: c, isWS x = true :=
  fun hall => hasNonWS_of_jsTrim_ne c hc fun y hy => hall y (List.mem_cons_of_mem ' ' hy)

/-- The content of a dash line is newline-free. -/
theorem body_no_nl (c : List Char) (hc : '\n' ∉ c) : ∀ x ∈ ' ' :: c, x ≠ '\n' := by
  intro x hx
  rcases List.mem_cons.1 hx with h | h
  · subst h; decide
  · exact fun he => hc (he ▸ h)

/-- The leading-whitespace strip of a dash-line body strips the space. -/
theorem dropWhile_space (c : List Char) :
    List.dropWhile isWS (' ' :: c) = List.dropWhile isWS c := by
  rw [List.dropWhile_cons, if_pos (by decide)]

/-- The trimmed form of a numbered line: the digit label and dot survive,
the content is right-trimmed (its leading whitespace is interior). -/
theorem jsTrim_numLine (d c : List Char) (hd : d ≠ [])
    (hdd : ∀ x ∈ d, isDigitCh x = true) (hc : ¬ ∀ x ∈ c, isWS x = true) :
    jsTrim (numLine d c) = d ++ ('.' :: ' ' :: trimRight c) := by
  cases d with
  | nil => exact absurd rfl hd
  | cons a d' =>
    have ha := digit_facts a (hdd a (List.mem_cons_self a d'))
    unfold numLine jsTrim
    rw [show (a :: d') ++ '.' :: ' ' :: c = a :: (d' ++ ('.' :: ' ' :: c)) from rfl]
    rw [List.dropWhile_cons, if_neg (by simp [ha.1])]
    rw [show a :: (d' ++ ('.' :: ' ' :: c)) = ((a :: d') ++ ['.', ' ']) ++ c by simp]
    rw [trimRight_append _ _ hc]
    simp

/-- A case-insensitive prefix test against a letter pattern fails on a
digit-headed line. -/
theorem startsWithCI_digit (pat0 : Char) (pat : List Char) (a : Char) (l : List Char)
    (ha : isDigitCh a = true) (hpat : pat0 = 'e' ∨ pat0 = 'j' ∨ pat0 = 'p') :
    startsWithCI (pat0 :: pat) (a :: l) = false := by
  have hf := digit_facts a ha
  unfold startsWithCI lowerStr
  rw [List.map_cons, hf.2.2.2.2.1]
  show (pat0 == a && List.isPrefixOf pat (List.map charLower l)) = false
  rcases hpat with h | h | h <;> subst h
  · rw [beq_eq_false_iff_ne.2 (Ne.symm hf.2.2.2.2.2.1), Bool.false_and]
  · rw [beq_eq_false_iff_ne.2 (Ne.symm hf.2.2.2.2.2.2.1), Bool.false_and]
  · rw [beq_eq_false_iff_ne.2 (Ne.symm hf.2.2.2.2.2.2.2), Bool.false_and]

/-- A trimmed numbered line passes the fallback filter. -/
theorem fallback_filter_numLine (d c : List Char) (hd : d ≠ [])
    (hdd : ∀ x ∈ d, isDigitCh x = true) :
    (!(d ++ ('.' :: ' ' :: trimRight c)).isEmpty &&
     !startsWithCI "experience".data (d ++ ('.' :: ' ' :: trimRight c)) &&
     !startsWithCI "job".data (d ++ ('.' :: ' ' :: trimRight c)) &&
     !startsWithCI "position".data (d ++ ('.' :: ' ' :: trimRight c))) = true := by
  cases d with
  | nil => exact absurd rfl hd
  | cons a d' =>
    have ha : isDigitCh a = true := hdd a (List.mem_cons_self a d')
    rw [show (a :: d') ++ ('.' :: ' ' :: trimRight c)
      = a :: (d' ++ ('.' :: ' ' :: trimRight c)) from rfl]
    rw [show ("experience".data : List Char) = 'e' :: "xperience".data from rfl,
      show ("job".data : List Char) = 'j' :: "ob".data from rfl,
      show ("position".data : List Char) = 'p' :: "osition".data from rfl]
    rw [startsWithCI_digit _ _ _ _ ha (Or.inl rfl),
      startsWithCI_digit _ _ _ _ ha (Or.inr (Or.inl rfl)),
      startsWithCI_digit _ _ _ _ ha (Or.inr (Or.inr rfl))]
    rfl

/-- A trimmed numbered line is already JS-trimmed. -/
theorem jsTrim_numLine_trimmed (d c : List Char) (hd : d ≠ [])
    (hdd : ∀ x ∈ d, isDigitCh x = true) (hc : ¬ ∀ x ∈ c, isWS x = true) :
    jsTrim (d ++ ('.' :: ' ' :: trimRight c)) = d ++ ('.' :: ' ' :: trimRight c) := by
  cases d with
  | nil => exact absurd rfl hd
  | cons a d' =>
    have ha := digit_facts a (hdd a (List.mem_cons_self a d'))
    unfold jsTrim
    rw [show (a :: d') ++ ('.' :: ' ' :: trimRight c)
      = a :: (d' ++ ('.' :: ' ' :: trimRight c)) from rfl]
    rw [List.dropWhile_cons, if_neg (by simp [ha.1])]
    rw [show a :: (d' ++ ('.' :: ' ' :: trimRight c))
      = ((a :: d') ++ ['.', ' ']) ++ trimRight c by simp]
    rw [trimRight_append _ _ (hasNonWS_trimRight c hc), trimRight_idem]

/-- No character of a numbered line is a bullet marker (given that its
content has none). -/
theorem numLine_no_marker (d c : List Char) (hdd : ∀ x ∈ d, isDigitCh x = true)
    (hcm : ∀ x ∈ c, isMarker x = false) : ∀ x ∈ numLine d c, isMarker x = false := by
  intro x hx
  simp only [numLine, List.mem_append, List.mem_cons] at hx
  rcases hx with hx | hx | hx | hx
  · exact (digit_facts x (hdd x hx)).2.1
  · subst hx; decide
  · subst hx; decide
  · exact hcm x hx

/-- No character of a numbered line is a newline (given that its content
has none). -/
theorem numLine_no_nl (d c : List Char) (hdd : ∀ x ∈ d, isDigitCh x = true)
    (hcn : '\n' ∉ c) : '\n' ∉ numLine d c := by
  intro hx
  simp only [numLine, List.mem_append, List.mem_cons] at hx
  rcases hx with hx | hx | hx | hx
  · exact absurd (digit_facts '\n' (hdd '\n' hx)).2.2.1 (by simp)
  · exact absurd hx (by decide)
  · exact absurd hx (by decide)
  · exact hcn hx

/-- When the bullet scan yields four trimmed non-blank captures, the
extractor returns them unchanged. -/
theorem extract_of_bullets4 (text b1 b2 b3 b4 : List Char)
    (h : (bulletScan text).map jsTrim = [b1, b2, b3, b4])
    (hne1 : b1 ≠ []) (hne2 : b2 ≠ []) (hne3 : b3 ≠ []) (hne4 : b4 ≠ [])
    (hi1 : jsTrim b1 = b1) (hi2 : jsTrim b2 = b2)
    (hi3 : jsTrim b3 = b3) (hi4 : jsTrim b4 = b4) :
    extractBulletPointsL text = [b1, b2, b3, b4] := by
  have e1 : b1.isEmpty = false := by simp [List.isEmpty_eq_false, hne1]
  have e2 : b2.isEmpty = false := by simp [List.isEmpty_eq_false, hne2]
  have e3 : b3.isEmpty = false := by simp [List.isEmpty_eq_false, hne3]
  have e4 : b4.isEmpty = false := by simp [List.isEmpty_eq_false, hne4]
  have hf : List.filter (fun b => !(jsTrim b).isEmpty) [b1, b2, b3, b4]
      = [b1, b2, b3, b4] := by
    simp [List.filter_cons, hi1, hi2, hi3, hi4, e1, e2, e3, e4]
  simp only [extractBulletPointsL, h]
  rw [if_neg (show ¬ (([b1, b2, b3, b4] : List (List Char)).length ≠ 4) from by simp)]
  rw [if_neg (show ¬ (([b1, b2, b3, b4] : List (List Char)).length ≠ 4) from by simp)]
  rw [hf]
  rw [if_neg (show ¬ (([b1, b2, b3, b4] : List (List Char)).length > 4) from by simp)]
  rfl

/-- When the bullet scan finds nothing, the numbered scan finds three
items, and the fallback keeps exactly three trimmed non-blank lines, the
extractor returns the three lines padded with one empty entry. -/
theorem extract_of_fallback3 (text g1 g2 g3 L1 L2 L3 : List Char)
    (hb : bulletScan text = [])
    (hn : (numberedScan text).map jsTrim = [g1, g2, g3])
    (hf : fallbackLines text = [L1, L2, L3])
    (hne1 : L1 ≠ []) (hne2 : L2 ≠ []) (hne3 : L3 ≠ [])
    (hi1 : jsTrim L1 = L1) (hi2 : jsTrim L2 = L2) (hi3 : jsTrim L3 = L3) :
    extractBulletPointsL text = [L1, L2, L3, []] := by
  have e1 : L1.isEmpty = false := by simp [List.isEmpty_eq_false, hne1]
  have e2 : L2.isEmpty = false := by simp [List.isEmpty_eq_false, hne2]
  have e3 : L3.isEmpty = false := by simp [List.isEmpty_eq_false, hne3]
  have hfil : List.filter (fun b => !(jsTrim b).isEmpty) [L1, L2, L3] = [L1, L2, L3] := by
    simp [List.filter_cons, hi1, hi2, hi3, e1, e2, e3]
  simp only [extractBulletPointsL, hb, List.map_nil]
  rw [if_pos (show (([] : List (List Char)).length ≠ 4) from by simp), hn]
  rw [if_pos (show (([g1, g2, g3] : List (List Char)).length ≠ 4) from by simp), hf]
  rw [hfil]
  rw [if_neg (show ¬ (([L1, L2, L3] : List (List Char)).length > 4) from by simp)]
  rfl

/-! ## Claim C4 -/

/-- C4 fails as stated; this counterexample shows both halves.  (a) On
four dash-prefixed lines whose first content is blank, the greedy `\s*`
of the bullet regex swallows the newline, the first match engulfs the
second line, the bullet pass yields 3 captures, and the line-split
fallback returns the raw lines — not the trimmed contents
`["", "b", "c", "d"]`.  (b) On three numbered lines the numbered pass
yields 3 captures, which fails the `!== 4` check, so the line-split
fallback overrides it and the whole lines — numeric prefixes included —
are returned, not the numbered-item contents `["a", "b", "c", ""]`. -/
theorem claim_C4_counterexample :
    extractBulletPoints "- \n- b\n- c\n- d" = ["-", "- b", "- c", "- d"] ∧
    extractBulletPoints "- \n- b\n- c\n- d" ≠ ["", "b", "c", "d"] ∧
    extractBulletPoints "1. a\n2. b\n3. c" = ["1. a", "2. b", "3. c", ""] ∧
    extractBulletPoints "1. a\n2. b\n3. c" ≠ ["a", "b", "c", ""] :=
  ⟨by decide, by decide, by decide, by decide⟩

/-- C4 (amended): (a) for every text of exactly 4 dash-prefixed lines
whose contents are newline-free and nonblank, extraction returns the 4
contents verbatim, trimmed; (b) for every text of exactly 3 numbered
lines (nonempty digit labels) whose contents are newline-free, nonblank
and free of dash/bullet/asterisk characters, the numbered-list pattern
yields the 3 items but — since 3 ≠ 4 — the line-split fallback overrides
it, and extraction returns the 3 whole lines (trimmed, numeric prefixes
included) padded with one empty string. -/
theorem claim_C4 :
    (∀ c1 c2 c3 c4 : List Char,
      ('\n' ∉ c1 ∧ jsTrim c1 ≠ []) → ('\n' ∉ c2 ∧ jsTrim c2 ≠ []) →
      ('\n' ∉ c3 ∧ jsTrim c3 ≠ []) → ('\n' ∉ c4 ∧ jsTrim c4 ≠ []) →
      extractBulletPointsL (joinLines [dashLine c1, dashLine c2, dashLine c3, dashLine c4])
        = [jsTrim c1, jsTrim c2, jsTrim c3, jsTrim c4]) ∧
    (∀ d1 d2 d3 c1 c2 c3 : List Char,
      (d1 ≠ [] ∧ ∀ x ∈ d1, isDigitCh x = true) →
      (d2 ≠ [] ∧ ∀ x ∈ d2, isDigitCh x = true) →
      (d3 ≠ [] ∧ ∀ x ∈ d3, isDigitCh x = true) →
      ('\n' ∉ c1 ∧ jsTrim c1 ≠ [] ∧ ∀ x ∈ c1, isMarker x = false) →
      ('\n' ∉ c2 ∧ jsTrim c2 ≠ [] ∧ ∀ x ∈ c2, isMarker x = false) →
      ('\n' ∉ c3 ∧ jsTrim c3 ≠ [] ∧ ∀ x ∈ c3, isMarker x = false) →
      extractBulletPointsL (joinLines [numLine d1 c1, numLine d2 c2, numLine d3 c3])
        = [d1 ++ ('.' :: ' ' :: trimRight c1), d2 ++ ('.' :: ' ' :: trimRight c2),
           d3 ++ ('.' :: ' ' :: trimRight c3), []]) := by
  constructor
  · intro c1 c2 c3 c4 h1 h2 h3 h4
    have e4 : bulletScan (joinLines [dashLine c4]) = [List.dropWhile isWS (' ' :: c4)] := by
      rw [show joinLines [dashLine c4] = '-' :: ((' ' :: c4) ++ [])
        from by simp [joinLines, dashLine]]
      rw [bulletScan_match '-' (' ' :: c4) [] (by decide) (body_hasNonWS c4 h4.2)
        (body_no_nl c4 h4.1) (by decide)]
      rfl
    have e3 : bulletScan (joinLines [dashLine c3, dashLine c4])
        = List.dropWhile isWS (' ' :: c3) :: bulletScan ('\n' :: joinLines [dashLine c4]) := by
      rw [show joinLines [dashLine c3, dashLine c4]
          = '-' :: ((' ' :: c3) ++ ('\n' :: joinLines [dashLine c4]))
        from by simp [joinLines, dashLine]]
      exact bulletScan_match '-' (' ' :: c3) _ (by decide) (body_hasNonWS c3 h3.2)
        (body_no_nl c3 h3.1)
        (by rw [show joinLines [dashLine c4] = '-' :: (' ' :: c4) from rfl]
            exact bulletLA_nl_marker '-' _ (by decide))
    have e2 : bulletScan (joinLines [dashLine c2, dashLine c3, dashLine c4])
        = List.dropWhile isWS (' ' :: c2)
            :: bulletScan ('\n' :: joinLines [dashLine c3, dashLine c4]) := by
      rw [show joinLines [dashLine c2, dashLine c3, dashLine c4]
          = '-' :: ((' ' :: c2) ++ ('\n' :: joinLines [dashLine c3, dashLine c4]))
        from by simp [joinLines, dashLine]]
      exact bulletScan_match '-' (' ' :: c2) _ (by decide) (body_hasNonWS c2 h2.2)
        (body_no_nl c2 h2.1)
        (by rw [show joinLines [dashLine c3, dashLine c4]
              = '-' :: (' ' :: (c3 ++ ('\n' :: joinLines [dashLine c4])))
            from by simp [joinLines, dashLine]]
            exact bulletLA_nl_marker '-' _ (by decide))
    have e1 : bulletScan (joinLines [dashLine c1, dashLine c2, dashLine c3, dashLine c4])
        = List.dropWhile isWS (' ' :: c1)
            :: bulletScan ('\n' :: joinLines [dashLine c2, dashLine c3, dashLine c4]) := by
      rw [show joinLines [dashLine c1, dashLine c2, dashLine c3, dashLine c4]
          = '-' :: ((' ' :: c1) ++ ('\n' :: joinLines [dashLine c2, dashLine c3, dashLine c4]))
        from by simp [joinLines, dashLine]]
      exact bulletScan_match '-' (' ' :: c1) _ (by decide) (body_hasNonWS c1 h1.2)
        (body_no_nl c1 h1.1)
        (by rw [show joinLines [dashLine c2, dashLine c3, dashLine c4]
              = '-' :: (' ' :: (c2 ++ ('\n' :: joinLines [dashLine c3, dashLine c4])))
            from by simp [joinLines, dashLine]]
            exact bulletLA_nl_marker '-' _ (by decide))
    have hmap : (bulletScan
        (joinLines [dashLine c1, dashLine c2, dashLine c3, dashLine c4])).map jsTrim
        = [jsTrim c1, jsTrim c2, jsTrim c3, jsTrim c4] := by
      rw [e1, bulletScan_skip '\n' _ (by decide), e2, bulletScan_skip '\n' _ (by decide),
        e3, bulletScan_skip '\n' _ (by decide), e4]
      simp [dropWhile_space, jsTrim_dropWhile]
    exact extract_of_bullets4 _ _ _ _ _ hmap h1.2 h2.2 h3.2 h4.2
      (jsTrim_idem c1) (jsTrim_idem c2) (jsTrim_idem c3) (jsTrim_idem c4)
  · intro d1 d2 d3 c1 c2 c3 hd1 hd2 hd3 hc1 hc2 hc3
    have hb : bulletScan (joinLines [numLine d1 c1, numLine d2 c2, numLine d3 c3]) = [] := by
      show bulletScanF _ _ = []
      refine bulletScanF_no_marker _ _ ?_
      intro x hx
      simp only [joinLines, numLine, List.mem_append, List.mem_cons] at hx
      rcases hx with (hx | hx | hx | hx) | hx | (hx | hx | hx | hx) | hx | (hx | hx | hx | hx)
      · exact (digit_facts x (hd1.2 x hx)).2.1
      · subst hx; decide
      · subst hx; decide
      · exact hc1.2.2 x hx
      · subst hx; decide
      · exact (digit_facts x (hd2.2 x hx)).2.1
      · subst hx; decide
      · subst hx; decide
      · exact hc2.2.2 x hx
      · subst hx; decide
      · exact (digit_facts x (hd3.2 x hx)).2.1
      · subst hx; decide
      · subst hx; decide
      · exact hc3.2.2 x hx
    have n3 : numberedScan (joinLines [numLine d3 c3]) = [List.dropWhile isWS (' ' :: c3)] := by
      rw [show joinLines [numLine d3 c3] = d3 ++ ('.' :: ((' ' :: c3) ++ []))
        from by simp [joinLines, numLine]]
      rw [numberedScan_match d3 (' ' :: c3) [] hd3.1 hd3.2 (body_hasNonWS c3 hc3.2.1)
        (body_no_nl c3 hc3.1) (by decide)]
      rfl
    have n2 : numberedScan (joinLines [numLine d2 c2, numLine d3 c3])
        = List.dropWhile isWS (' ' :: c2)
            :: numberedScan ('\n' :: joinLines [numLine d3 c3]) := by
      rw [show joinLines [numLine d2 c2, numLine d3 c3]
          = d2 ++ ('.' :: ((' ' :: c2) ++ ('\n' :: joinLines [numLine d3 c3])))
        from by simp [joinLines, numLine]]
      exact numberedScan_match d2 (' ' :: c2) _ hd2.1 hd2.2 (body_hasNonWS c2 hc2.2.1)
        (body_no_nl c2 hc2.1)
        (by rw [show joinLines [numLine d3 c3] = d3 ++ ('.' :: (' ' :: c3))
              from by simp [joinLines, numLine]]
            exact numLA_nl_digits d3 _ hd3.1 hd3.2)
    have n1 : numberedScan (joinLines [numLine d1 c1, numLine d2 c2, numLine d3 c3])
        = List.dropWhile isWS (' ' :: c1)
            :: numberedScan ('\n' :: joinLines [numLine d2 c2, numLine d3 c3]) := by
      rw [show joinLines [numLine d1 c1, numLine d2 c2, numLine d3 c3]
          = d1 ++ ('.' :: ((' ' :: c1) ++ ('\n' :: joinLines [numLine d2 c2, numLine d3 c3])))
        from by simp [joinLines, numLine]]
      exact numberedScan_match d1 (' ' :: c1) _ hd1.1 hd1.2 (body_hasNonWS c1 hc1.2.1)
        (body_no_nl c1 hc1.1)
        (by rw [show joinLines [numLine d2 c2, numLine d3 c3]
              = d2 ++ ('.' :: (' ' :: (c2 ++ ('\n' :: joinLines [numLine d3 c3]))))
            from by simp [joinLines, numLine]]
            exact numLA_nl_digits d2 _ hd2.1 hd2.2)
    have hn : (numberedScan
        (joinLines [numLine d1 c1, numLine d2 c2, numLine d3 c3])).map jsTrim
        = [jsTrim c1, jsTrim c2, jsTrim c3] := by
      rw [n1, numberedScan_skip '\n' _ (by decide), n2,
        numberedScan_skip '\n' _ (by decide), n3]
      simp [dropWhile_space, jsTrim_dropWhile]
    have hsplit : splitNl (joinLines [numLine d1 c1, numLine d2 c2, numLine d3 c3])
        = [numLine d1 c1, numLine d2 c2, numLine d3 c3] := by
      rw [show joinLines [numLine d1 c1, numLine d2 c2, numLine d3 c3]
          = numLine d1 c1 ++ '\n' :: (numLine d2 c2 ++ '\n' :: numLine d3 c3)
        from by simp [joinLines]]
      rw [splitNl_append _ _ (numLine_no_nl d1 c1 hd1.2 hc1.1),
        splitNl_append _ _ (numLine_no_nl d2 c2 hd2.2 hc2.1),
        splitNl_no_nl _ (numLine_no_nl d3 c3 hd3.2 hc3.1)]
    have hfall : fallbackLines (joinLines [numLine d1 c1, numLine d2 c2, numLine d3 c3])
        = [d1 ++ ('.' :: ' ' :: trimRight c1), d2 ++ ('.' :: ' ' :: trimRight c2),
           d3 ++ ('.' :: ' ' :: trimRight c3)] := by
      unfold fallbackLines
      rw [hsplit]
      simp only [List.map_cons, List.map_nil]
      rw [jsTrim_numLine d1 c1 hd1.1 hd1.2 (hasNonWS_of_jsTrim_ne c1 hc1.2.1),
        jsTrim_numLine d2 c2 hd2.1 hd2.2 (hasNonWS_of_jsTrim_ne c2 hc2.2.1),
        jsTrim_numLine d3 c3 hd3.1 hd3.2 (hasNonWS_of_jsTrim_ne c3 hc3.2.1)]
      simp only [List.filter_cons, List.filter_nil]
      rw [if_pos (fallback_filter_numLine d1 c1 hd1.1 hd1.2),
        if_pos (fallback_filter_numLine d2 c2 hd2.1 hd2.2),
        if_pos (fallback_filter_numLine d3 c3 hd3.1 hd3.2)]
    refine extract_of_fallback3 _ (jsTrim c1) (jsTrim c2) (jsTrim c3) _ _ _ hb hn hfall
      (List.append_ne_nil_of_left_ne_nil hd1.1 _)
      (List.append_ne_nil_of_left_ne_nil hd2.1 _)
      (List.append_ne_nil_of_left_ne_nil hd3.1 _)
      (jsTrim_numLine_trimmed d1 c1 hd1.1 hd1.2 (hasNonWS_of_jsTrim_ne c1 hc1.2.1))
      (jsTrim_numLine_trimmed d2 c2 hd2.1 hd2.2 (hasNonWS_of_jsTrim_ne c2 hc2.2.1))
      (jsTrim_numLine_trimmed d3 c3 hd3.1 hd3.2 (hasNonWS_of_jsTrim_ne c3 hc3.2.1))

/-- Witness for the amended C4 at concrete lines. -/
theorem claim_C4_witness :
    extractBulletPointsL ("- aa\n- bb\n- cc\n- dd".data)
      = ["aa".data, "bb".data, "cc".data, "dd".data] ∧
    extractBulletPointsL ("1. aa\n22. bb\n3. cc".data)
      = ["1. aa".data, "22. bb".data, "3. cc".data, []] := by
  constructor
  · have h := claim_C4.1 "aa".data "bb".data "cc".data "dd".data
      ⟨by decide, by decide⟩ ⟨by decide, by decide⟩ ⟨by decide, by decide⟩ ⟨by decide, by decide⟩
    rw [show joinLines [dashLine "aa".data, dashLine "bb".data, dashLine "cc".data,
        dashLine "dd".data] = ("- aa\n- bb\n- cc\n- dd".data) from by decide] at h
    rw [h]
    decide
  · have h := claim_C4.2 "1".data "22".data "3".data "aa".data "bb".data "cc".data
      ⟨by decide, by decide⟩ ⟨by decide, by decide⟩ ⟨by decide, by decide⟩
      ⟨by decide, by decide, by decide⟩ ⟨by decide, by decide, by decide⟩
      ⟨by decide, by decide, by decide⟩
    rw [show joinLines [numLine "1".data "aa".data, numLine "22".data "bb".data,
        numLine "3".data "cc".data] = ("1. aa\n22. bb\n3. cc".data) from by decide] at h
    rw [h]
    decide

end ResumeTuner
